import Mathlib

/-!
Verification of the lumatone-rs MIDI SysEx driver core against its specification.

The Rust sources are shallowly embedded: byte strings become `List Nat` (each
element a byte value), `Vec` becomes `List`, fallible functions return
`Except`, and functions that can panic return `Option` (with `none` marking
the panic).  Machine integers are `Nat`; the source's masks and shifts are
kept literally, and boundedness hypotheses are added where the Rust types
(`u8`, `u16`, ...) guarantee them.
-/

namespace Lumatone

/-- Subset of `LumatoneMidiError` (src/midi/src/error.rs) constructed by the embedded
functions.  `String` payloads of the source are dropped; numeric payloads are kept. -/
inductive LumatoneMidiError where
  | notLumatoneMessage (msg : List Nat)
  | messageTooShort (expected actual : Nat)
  | messagePayloadTooShort (expected actual : Nat)
  | unknownCommandId (id : Nat)
  | unexpectedCommandId (expected actual : Nat)
  | invalidResponseMessage
  | invalidStateTransition
  deriving DecidableEq, Repr

/-- BoardIndex from src/src/midi/constants.rs: `Server = 0, Octave1, ..., Octave5`. -/
inductive BoardIndex where
  | server
  | octave1
  | octave2
  | octave3
  | octave4
  | octave5
  deriving DecidableEq, Repr

/-- Wire byte of a board index (the `Into<u8>` impl: the enum discriminant). -/
def BoardIndex.toByte : BoardIndex → Nat
  | .server => 0
  | .octave1 => 1
  | .octave2 => 2
  | .octave3 => 3
  | .octave4 => 4
  | .octave5 => 5

/-- FromPrimitive::from_u8 for BoardIndex: bytes 0..=5 map to the variants in order. -/
def BoardIndex.fromByte : Nat → Option BoardIndex
  | 0 => some .server
  | 1 => some .octave1
  | 2 => some .octave2
  | 3 => some .octave3
  | 4 => some .octave4
  | 5 => some .octave5
  | _ => none

/-- MidiChannel (src/src/midi/constants.rs): bounded integer in 1..=16. -/
abbrev MidiChannel := {n : Nat // 1 ≤ n ∧ n ≤ 16}

/-- MidiChannel::new — the checked constructor of the bounded integer. -/
def MidiChannel.new (n : Nat) : Option MidiChannel :=
  if h : 1 ≤ n ∧ n ≤ 16 then some ⟨n, h⟩ else none

/-- Default impl for MidiChannel returns MidiChannel::MIN, i.e. channel 1. -/
def MidiChannel.default : MidiChannel := ⟨1, by decide⟩

/-- The zero-indexed byte projection of a MIDI channel (value − 1). -/
def MidiChannel.get_as_zero_indexed (c : MidiChannel) : Nat := c.val - 1

/-- LumatoneKeyIndex: bounded integer in 0..=55. -/
abbrev LumatoneKeyIndex := Fin 56

/-- LumatoneKeyIndex::unchecked panics when out of range; `none` models the panic. -/
def LumatoneKeyIndex.unchecked (n : Nat) : Option LumatoneKeyIndex :=
  if h : n < 56 then some ⟨n, h⟩ else none

/-- LumatoneKeyLocation (src/src/midi/constants.rs line 131): a public tuple struct
pairing any BoardIndex — including Server — with a key index. -/
structure LumatoneKeyLocation where
  board : BoardIndex
  key : LumatoneKeyIndex
  deriving DecidableEq, Repr

def LumatoneKeyLocation.board_index (l : LumatoneKeyLocation) : BoardIndex := l.board

def LumatoneKeyLocation.key_index (l : LumatoneKeyLocation) : LumatoneKeyIndex := l.key

/-- key_loc_unchecked (src/src/midi/constants.rs lines 151-156): both lookups panic on
out-of-range input; `none` models the panic.  Note that board byte 0 maps to `Server`. -/
def key_loc_unchecked (board_index key_index : Nat) : Option LumatoneKeyLocation :=
  match BoardIndex.fromByte board_index, LumatoneKeyIndex.unchecked key_index with
  | some b, some k => some ⟨b, k⟩
  | _, _ => none

/-- LumatoneKeyFunction (src/src/midi/constants.rs). -/
inductive LumatoneKeyFunction where
  | noteOnOff (channel : MidiChannel) (note_num : Nat)
  | continuousController (channel : MidiChannel) (cc_num : Nat) (fader_up_is_null : Bool)
  | lumaTouch (channel : MidiChannel) (note_num : Nat) (fader_up_is_null : Bool)
  | disabled
  deriving DecidableEq, Repr

/-- Wire type code: 1/2/3/4, with bit 4 set for the fader-up-null variants. -/
def LumatoneKeyFunction.type_code : LumatoneKeyFunction → Nat
  | .noteOnOff _ _ => 1
  | .continuousController _ _ false => 2
  | .continuousController _ _ true => (1 <<< 4) ||| 2
  | .lumaTouch _ _ false => 3
  | .lumaTouch _ _ true => (1 <<< 4) ||| 3
  | .disabled => 4

/-- Plain key type code used in the INI text form - no fader-up-null bit. -/
def LumatoneKeyFunction.key_type_code : LumatoneKeyFunction → Nat
  | .noteOnOff _ _ => 1
  | .continuousController _ _ _ => 2
  | .lumaTouch _ _ _ => 3
  | .disabled => 4

def LumatoneKeyFunction.note_or_cc_num : LumatoneKeyFunction → Nat
  | .noteOnOff _ n => n
  | .continuousController _ n _ => n
  | .lumaTouch _ n _ => n
  | .disabled => 0

def LumatoneKeyFunction.midi_channel_byte : LumatoneKeyFunction → Nat
  | .noteOnOff c _ => c.val
  | .continuousController c _ _ => c.val
  | .lumaTouch c _ _ => c.val
  | .disabled => 0

/-- RGBColor: three 8-bit channels (values < 256 wherever the Rust type is u8). -/
structure RGBColor where
  r : Nat
  g : Nat
  b : Nat
  deriving DecidableEq, Repr

/-- RGBColor::to_bytes — six nibbles, R-hi, R-lo, G-hi, G-lo, B-hi, B-lo. -/
def RGBColor.to_bytes (c : RGBColor) : List Nat :=
  [c.r >>> 4, c.r &&& 0xf, c.g >>> 4, c.g &&& 0xf, c.b >>> 4, c.b &&& 0xf]

/-- From<u32> for RGBColor: the leftmost byte is ignored. -/
def RGBColor.fromU32 (val : Nat) : RGBColor :=
  ⟨(val >>> 16) &&& 0xff, (val >>> 8) &&& 0xff, val &&& 0xff⟩

/-- ResponseStatusCode (src/src/midi/constants.rs): the device's status byte. -/
inductive ResponseStatusCode where
  | nack
  | ack
  | busy
  | error
  | state
  | unknown
  deriving DecidableEq, Repr

/-- FromPrimitive::from_u8 for ResponseStatusCode combined with `unwrap_or(Unknown)` as
used by message_answer_code: bytes 0..=4 map to the variants, 0xff maps to Unknown via
its discriminant, and every other byte falls back to Unknown. -/
def ResponseStatusCode.fromByte : Nat → ResponseStatusCode
  | 0 => .nack
  | 1 => .ack
  | 2 => .busy
  | 3 => .error
  | 4 => .state
  | _ => .unknown

-- ---------------------------------------------------------------------------
-- SysEx framing (src/midi/src/sysex.rs)
-- ---------------------------------------------------------------------------

def MANUFACTURER_ID : List Nat := [0x00, 0x21, 0x50]

def TEST_ECHO : Nat := 0x7f

def BOARD_IND : Nat := 0x3

def CMD_ID : Nat := 0x4

def MSG_STATUS : Nat := 0x5

def PAYLOAD_INIT : Nat := 0x6

def SYSEX_START : Nat := 0xf0

def SYSEX_END : Nat := 0xf7

/-- Encoded SysEx frames are plain byte strings. -/
abbrev EncodedSysex := List Nat

/-- Tables are 128 7-bit values on the wire (`Vec<u8>` in src/midi/src/sysex.rs). -/
abbrev SysexTable := List Nat

/-- The velocity interval table contains 127 12-bit values (`Vec<u16>`). -/
abbrev VelocityIntervalTable := List Nat

def reverse_table (t : SysexTable) : SysexTable := t.reverse

/-- create_sysex (src/midi/src/sysex.rs lines 46-63).  The padding check is
`sysex.len() < 10` where `sysex` already includes the SYSEX_START marker, so the
buffer including the start marker is padded to 10 bytes (9-byte body) before the
end marker is appended.  `List.replicate (10 - n) 0` is empty when n ≥ 10, which
matches the guarded loop in the source. -/
def create_sysex (board_index : BoardIndex) (cmd : Nat) (data : List Nat) : EncodedSysex :=
  let sysex := SYSEX_START :: (MANUFACTURER_ID ++ [board_index.toByte, cmd] ++ data)
  let sysex := sysex ++ List.replicate (10 - sysex.length) 0
  sysex ++ [SYSEX_END]

def create_sysex_toggle (board_index : BoardIndex) (cmd : Nat) (state : Bool) : EncodedSysex :=
  create_sysex board_index cmd [if state then 1 else 0]

def create_zero_arg_sysex (board_index : BoardIndex) (cmd : Nat) : EncodedSysex :=
  create_sysex board_index cmd []

def create_zero_arg_server_sysex (cmd : Nat) : EncodedSysex :=
  create_sysex .server cmd []

def create_single_arg_server_sysex (cmd : Nat) (value : Nat) : EncodedSysex :=
  create_sysex .server cmd [value]

def create_extended_key_color_sysex (board_index : BoardIndex) (cmd : Nat)
    (key_index : Nat) (color : RGBColor) : EncodedSysex :=
  create_sysex board_index cmd (key_index :: color.to_bytes)

def create_extended_macro_color_sysex (cmd : Nat) (color : RGBColor) : EncodedSysex :=
  create_sysex .server cmd color.to_bytes

def create_table_sysex (cmd : Nat) (table : SysexTable) : EncodedSysex :=
  create_sysex .server cmd table

/-- strip_sysex_markers (src/midi/src/sysex.rs lines 101-112).  The source computes
`end = msg.len() - 1` (usize) and runs `end -= 1` when the last byte is SYSEX_END;
for the one-byte input `[0xF7]` this underflows and the slice `msg[start..=end]`
panics in every build profile.  `none` models that panic. -/
def strip_sysex_markers (msg : List Nat) : Option (List Nat) :=
  if msg.length = 0 then some msg
  else
    let start := if msg.getD 0 0 = SYSEX_START then 1 else 0
    let e := msg.length - 1
    if msg.getD e 0 = SYSEX_END then
      if e = 0 then none
      else some ((msg.drop start).take (e - 1 + 1 - start))
    else some ((msg.drop start).take (e + 1 - start))

/-- is_lumatone_message (src/midi/src/sysex.rs lines 114-126); propagates the panic of
strip_sysex_markers.  The zip with MANUFACTURER_ID compares the first three bytes. -/
def is_lumatone_message (msg : List Nat) : Option Bool := do
  let m ← strip_sysex_markers msg
  if m.length < 3 then return false
  return (MANUFACTURER_ID.zip m).all fun p => p.1 = p.2

/-- message_payload (src/midi/src/sysex.rs lines 128-137). -/
def message_payload (msg : List Nat) : Option (Except LumatoneMidiError (List Nat)) := do
  let m ← strip_sysex_markers msg
  if m.length ≤ PAYLOAD_INIT then
    return .error (.messageTooShort (PAYLOAD_INIT + 1) m.length)
  return .ok (m.drop PAYLOAD_INIT)

/-- message_command_id (src/midi/src/sysex.rs lines 139-150).  CommandId is modeled by
its wire byte; FromPrimitive succeeds exactly for the contiguous discriminants
0x00..=0x45 of the CommandId enum. -/
def message_command_id (msg : List Nat) : Option (Except LumatoneMidiError Nat) := do
  let m ← strip_sysex_markers msg
  if m.length ≤ CMD_ID then
    return .error (.messageTooShort (CMD_ID + 1) m.length)
  let cmd_id := m.getD CMD_ID 0
  if cmd_id ≤ 0x45 then return .ok cmd_id
  return .error (.unknownCommandId cmd_id)

/-- message_answer_code (src/midi/src/sysex.rs lines 152-161). -/
def message_answer_code (msg : List Nat) : Option ResponseStatusCode := do
  let m ← strip_sysex_markers msg
  if m.length ≤ MSG_STATUS then return .unknown
  return ResponseStatusCode.fromByte (m.getD MSG_STATUS 0)

/-- is_response_to_message (src/midi/src/sysex.rs lines 163-176).  Note that the
already-stripped incoming bytes are passed to is_lumatone_message, which strips again. -/
def is_response_to_message (outgoing incoming : List Nat) : Option Bool := do
  let o ← strip_sysex_markers outgoing
  let i ← strip_sysex_markers incoming
  let isl ← is_lumatone_message i
  if isl = false then return false
  if i.length ≤ CMD_ID ∨ o.length < CMD_ID then return false
  return i.getD CMD_ID 0 = o.getD CMD_ID 0 ∧ i.getD BOARD_IND 0 = o.getD BOARD_IND 0

-- ---------------------------------------------------------------------------
-- Commands (src/midi/src/commands.rs)
-- ---------------------------------------------------------------------------

set_option maxHeartbeats 2000000 in
/-- Command (src/midi/src/commands.rs lines 19-197): the closed catalog of commands. -/
inductive Command where
  | ping (value : Nat)
  | setKeyFunction (location : LumatoneKeyLocation) (function : LumatoneKeyFunction)
  | setKeyColor (location : LumatoneKeyLocation) (color : RGBColor)
  | saveProgram (preset_number : Nat)
  | setExpressionPedalSensitivity (value : Nat)
  | setModWheelSensitivity (value : Nat)
  | setPitchWheelSensitivity (value : Nat)
  | invertFootController (invert : Bool)
  | invertSustainPedal (invert : Bool)
  | setLightOnKeystrokes (active : Bool)
  | setAftertouchEnabled (enabled : Bool)
  | enableDemoMode (enabled : Bool)
  | enablePitchModWheelCalibrationMode (enabled : Bool)
  | enableExpressionPedalCalibrationMode (enabled : Bool)
  | setMacroButtonActiveColor (color : RGBColor)
  | setMacroButtonInactiveColor (color : RGBColor)
  | setVelocityConfig (table : SysexTable)
  | setFaderConfig (table : SysexTable)
  | setAftertouchConfig (table : SysexTable)
  | setLumatouchConfig (table : SysexTable)
  | setVelocityIntervals (table : VelocityIntervalTable)
  | setKeyMaximumThreshold (board_index : BoardIndex) (max_threshold aftertouch_max : Nat)
  | setKeyMinimumThreshold (board_index : BoardIndex) (threshold_high threshold_low : Nat)
  | setPitchWheelZeroThreshold (value : Nat)
  | setKeyFaderSensitivity (board_index : BoardIndex) (value : Nat)
  | setKeyAftertouchSensitivity (board_index : BoardIndex) (value : Nat)
  | setCCActiveThreshold (board_index : BoardIndex) (value : Nat)
  | resetBoardThresholds (board_index : BoardIndex)
  | setAftertouchTriggerDelay (board_index : BoardIndex) (value : Nat)
  | getAftertouchTriggerDelay (board_index : BoardIndex)
  | setLumatouchNoteOffDelay (board_index : BoardIndex) (value : Nat)
  | getLumatouchNoteOffDelay (board_index : BoardIndex)
  | getRedLEDConfig (board_index : BoardIndex)
  | getGreenLEDConfig (board_index : BoardIndex)
  | getBlueLEDConfig (board_index : BoardIndex)
  | getMidiChannelConfig (board_index : BoardIndex)
  | getNoteConfig (board_index : BoardIndex)
  | getKeyTypeConfig (board_index : BoardIndex)
  | getMaxFaderThreshold (board_index : BoardIndex)
  | getMinFaderThreshold (board_index : BoardIndex)
  | getMaxAftertouchThreshold (board_index : BoardIndex)
  | getKeyValidity (board_index : BoardIndex)
  | getFaderTypeConfig (board_index : BoardIndex)
  | getBoardThresholdValues (board_index : BoardIndex)
  | getBoardSensitivityValues (board_index : BoardIndex)
  | getVelocityConfig
  | getVelocityIntervalConfig
  | getFaderConfig
  | getAftertouchConfig
  | getLumatouchConfig
  | getSerialId
  | getFirmwareRevision
  | startAftertouchCalibration
  | startKeyCalibration
  | saveVelocityConfig
  | resetVelocityConfig
  | saveFaderConfig
  | resetFaderConfig
  | saveAftertouchConfig
  | resetAftertouchConfig
  | saveLumatouchConfig
  | resetLumatouchConfig
  | resetWheelThresholds
  | resetExpressionPedalBounds
  | enableKeySampling (board_index : BoardIndex) (enable : Bool)
  | setPeripheralChannels (pitch_wheel mod_wheel expression sustain : MidiChannel)
  | getPeripheralChannels
  | setExpressionPedalADCThreshold (value : Nat)
  | getExpressionPedalADCThreshold
  deriving Repr

/-- Command::command_id composed with the `Into<u8>` impl of CommandId: each variant's
wire command id byte (the CommandId discriminants of src/src/midi/constants.rs). -/
def Command.command_id : Command → Nat
  | .ping _ => 0x33
  | .setKeyFunction _ _ => 0x00
  | .setKeyColor _ _ => 0x01
  | .saveProgram _ => 0x02
  | .setExpressionPedalSensitivity _ => 0x03
  | .setModWheelSensitivity _ => 0x27
  | .setPitchWheelSensitivity _ => 0x28
  | .invertFootController _ => 0x04
  | .invertSustainPedal _ => 0x45
  | .setMacroButtonActiveColor _ => 0x05
  | .setMacroButtonInactiveColor _ => 0x06
  | .setLightOnKeystrokes _ => 0x07
  | .setAftertouchEnabled _ => 0x0e
  | .enableDemoMode _ => 0x25
  | .enablePitchModWheelCalibrationMode _ => 0x26
  | .setVelocityConfig _ => 0x08
  | .setFaderConfig _ => 0x0b
  | .setAftertouchConfig _ => 0x10
  | .setLumatouchConfig _ => 0x2d
  | .setVelocityIntervals _ => 0x20
  | .setKeyMaximumThreshold _ _ _ => 0x29
  | .setKeyMinimumThreshold _ _ _ => 0x2a
  | .setKeyFaderSensitivity _ _ => 0x2b
  | .setKeyAftertouchSensitivity _ _ => 0x2c
  | .setCCActiveThreshold _ _ => 0x32
  | .resetBoardThresholds _ => 0x34
  | .getRedLEDConfig _ => 0x13
  | .getGreenLEDConfig _ => 0x14
  | .getBlueLEDConfig _ => 0x15
  | .getMidiChannelConfig _ => 0x16
  | .getNoteConfig _ => 0x17
  | .getKeyTypeConfig _ => 0x18
  | .getMaxFaderThreshold _ => 0x19
  | .getMinFaderThreshold _ => 0x1a
  | .getMaxAftertouchThreshold _ => 0x1b
  | .getKeyValidity _ => 0x1c
  | .getFaderTypeConfig _ => 0x22
  | .getVelocityConfig => 0x1d
  | .getVelocityIntervalConfig => 0x21
  | .getFaderConfig => 0x1e
  | .getAftertouchConfig => 0x1f
  | .getLumatouchConfig => 0x30
  | .getSerialId => 0x23
  | .getFirmwareRevision => 0x31
  | .startAftertouchCalibration => 0x0f
  | .startKeyCalibration => 0x24
  | .saveVelocityConfig => 0x09
  | .resetVelocityConfig => 0x0a
  | .saveFaderConfig => 0x0c
  | .resetFaderConfig => 0x0d
  | .saveAftertouchConfig => 0x11
  | .resetAftertouchConfig => 0x12
  | .saveLumatouchConfig => 0x2e
  | .resetLumatouchConfig => 0x2f
  | .resetWheelThresholds => 0x36
  | .enableKeySampling _ _ => 0x35
  | .enableExpressionPedalCalibrationMode _ => 0x38
  | .setPitchWheelZeroThreshold _ => 0x37
  | .getBoardThresholdValues _ => 0x3a
  | .getBoardSensitivityValues _ => 0x3b
  | .resetExpressionPedalBounds => 0x39
  | .setPeripheralChannels _ _ _ _ => 0x3c
  | .getPeripheralChannels => 0x3d
  | .setAftertouchTriggerDelay _ _ => 0x3f
  | .getAftertouchTriggerDelay _ => 0x40
  | .setLumatouchNoteOffDelay _ _ => 0x41
  | .getLumatouchNoteOffDelay _ => 0x42
  | .setExpressionPedalADCThreshold _ => 0x43
  | .getExpressionPedalADCThreshold => 0x44

/-- Rust's clamp on unsigned integers. -/
def rust_clamp (v lo hi : Nat) : Nat := max lo (min v hi)

/-- encode_ping (src/midi/src/commands.rs lines 654-666): the value is masked to
28 bits and packed into three 7-bit bytes after the TEST_ECHO marker. -/
def encode_ping (value : Nat) : EncodedSysex :=
  let val := value &&& 0xfffffff
  create_sysex .server 0x33
    [TEST_ECHO, (val >>> 14) &&& 0x7f, (val >>> 7) &&& 0x7f, val &&& 0x7f]

def encode_set_key_function (location : LumatoneKeyLocation)
    (function : LumatoneKeyFunction) : EncodedSysex :=
  create_sysex location.board_index 0x00
    [location.key_index.val, function.note_or_cc_num, function.midi_channel_byte,
     function.type_code]

def encode_set_key_color (location : LumatoneKeyLocation) (color : RGBColor) : EncodedSysex :=
  create_extended_key_color_sysex location.board_index 0x01 location.key_index.val color

/-- encode_set_velocity_interval_table: each 12-bit value becomes two 6-bit bytes. -/
def encode_set_velocity_interval_table (table : VelocityIntervalTable) : EncodedSysex :=
  let bytes := table.flatMap fun n => [(n >>> 6) &&& 0x3f, n &&& 0x3f]
  create_sysex .server 0x20 bytes

def encode_set_key_thresholds (board_index : BoardIndex) (cmd : Nat)
    (t1 t2 : Nat) : EncodedSysex :=
  let t1 := t1 &&& 0xfe
  let t2 := t2 &&& 0xfe
  create_sysex board_index cmd [t1 >>> 4, t1 &&& 0xf, t2 >>> 4, t2 &&& 0xf]

def encode_set_key_sensitivity (board_index : BoardIndex) (cmd : Nat)
    (value : Nat) : EncodedSysex :=
  let value := value &&& 0xfe
  create_sysex board_index cmd [value >>> 4, value &&& 0xf]

/-- Command::to_sysex_message (src/midi/src/commands.rs lines 288-512). -/
def Command.to_sysex_message (c : Command) : EncodedSysex :=
  match c with
  | .ping value => encode_ping value
  | .setKeyFunction location function => encode_set_key_function location function
  | .setKeyColor location color => encode_set_key_color location color
  | .saveProgram preset_number => create_single_arg_server_sysex c.command_id preset_number
  | .setExpressionPedalSensitivity value => create_single_arg_server_sysex c.command_id value
  | .setModWheelSensitivity value =>
      create_single_arg_server_sysex c.command_id (rust_clamp value 1 0x7f)
  | .setPitchWheelSensitivity value =>
      let val := rust_clamp value 1 0x3fff
      create_sysex .server c.command_id [val >>> 7, val &&& 0x7f]
  | .invertFootController invert => create_sysex_toggle .server c.command_id invert
  | .invertSustainPedal invert => create_sysex_toggle .server c.command_id invert
  | .setAftertouchEnabled enabled => create_sysex_toggle .server c.command_id enabled
  | .enableDemoMode enabled => create_sysex_toggle .server c.command_id enabled
  | .enablePitchModWheelCalibrationMode enabled =>
      create_sysex_toggle .server c.command_id enabled
  | .setMacroButtonActiveColor color => create_extended_macro_color_sysex c.command_id color
  | .setMacroButtonInactiveColor color => create_extended_macro_color_sysex c.command_id color
  | .setLightOnKeystrokes active => create_sysex_toggle .server c.command_id active
  | .setVelocityConfig table => create_table_sysex c.command_id (reverse_table table)
  | .setFaderConfig table => create_table_sysex c.command_id table
  | .setAftertouchConfig table => create_table_sysex c.command_id table
  | .setLumatouchConfig table => create_table_sysex c.command_id table
  | .setVelocityIntervals table => encode_set_velocity_interval_table table
  | .setKeyMaximumThreshold board_index max_threshold aftertouch_max =>
      encode_set_key_thresholds board_index c.command_id max_threshold aftertouch_max
  | .setKeyMinimumThreshold board_index threshold_high threshold_low =>
      encode_set_key_thresholds board_index c.command_id threshold_high threshold_low
  | .setKeyFaderSensitivity board_index value =>
      encode_set_key_sensitivity board_index c.command_id value
  | .setKeyAftertouchSensitivity board_index value =>
      encode_set_key_sensitivity board_index c.command_id value
  | .setCCActiveThreshold board_index value =>
      encode_set_key_sensitivity board_index c.command_id value
  | .resetBoardThresholds board_index => create_zero_arg_sysex board_index c.command_id
  | .getRedLEDConfig board_index => create_zero_arg_sysex board_index c.command_id
  | .getGreenLEDConfig board_index => create_zero_arg_sysex board_index c.command_id
  | .getBlueLEDConfig board_index => create_zero_arg_sysex board_index c.command_id
  | .getMidiChannelConfig board_index => create_zero_arg_sysex board_index c.command_id
  | .getNoteConfig board_index => create_zero_arg_sysex board_index c.command_id
  | .getKeyTypeConfig board_index => create_zero_arg_sysex board_index c.command_id
  | .getMaxFaderThreshold board_index => create_zero_arg_sysex board_index c.command_id
  | .getMinFaderThreshold board_index => create_zero_arg_sysex board_index c.command_id
  | .getMaxAftertouchThreshold board_index => create_zero_arg_sysex board_index c.command_id
  | .getKeyValidity board_index => create_zero_arg_sysex board_index c.command_id
  | .getFaderTypeConfig board_index => create_zero_arg_sysex board_index c.command_id
  | .getVelocityConfig => create_zero_arg_server_sysex c.command_id
  | .getVelocityIntervalConfig => create_zero_arg_server_sysex c.command_id
  | .getFaderConfig => create_zero_arg_server_sysex c.command_id
  | .getAftertouchConfig => create_zero_arg_server_sysex c.command_id
  | .getLumatouchConfig => create_zero_arg_server_sysex c.command_id
  | .getSerialId => create_zero_arg_server_sysex c.command_id
  | .getFirmwareRevision => create_zero_arg_server_sysex c.command_id
  | .startAftertouchCalibration => create_zero_arg_server_sysex c.command_id
  | .startKeyCalibration => create_zero_arg_server_sysex c.command_id
  | .saveVelocityConfig => create_zero_arg_server_sysex c.command_id
  | .resetVelocityConfig => create_zero_arg_server_sysex c.command_id
  | .saveFaderConfig => create_zero_arg_server_sysex c.command_id
  | .resetFaderConfig => create_zero_arg_server_sysex c.command_id
  | .saveAftertouchConfig => create_zero_arg_server_sysex c.command_id
  | .resetAftertouchConfig => create_zero_arg_server_sysex c.command_id
  | .saveLumatouchConfig => create_zero_arg_server_sysex c.command_id
  | .resetLumatouchConfig => create_zero_arg_server_sysex c.command_id
  | .resetWheelThresholds => create_zero_arg_server_sysex c.command_id
  | .resetExpressionPedalBounds => create_zero_arg_server_sysex c.command_id
  | .enableKeySampling board_index enable => create_sysex_toggle board_index c.command_id enable
  | .enableExpressionPedalCalibrationMode enable =>
      create_sysex_toggle .server c.command_id enable
  | .setPitchWheelZeroThreshold value =>
      create_single_arg_server_sysex c.command_id (value &&& 0x7f)
  | .getBoardThresholdValues board_index => create_zero_arg_sysex board_index c.command_id
  | .getBoardSensitivityValues board_index => create_zero_arg_sysex board_index c.command_id
  | .setPeripheralChannels pitch_wheel mod_wheel expression sustain =>
      create_sysex .server c.command_id
        [pitch_wheel.get_as_zero_indexed, mod_wheel.get_as_zero_indexed,
         expression.get_as_zero_indexed, sustain.get_as_zero_indexed]
  | .getPeripheralChannels => create_zero_arg_server_sysex c.command_id
  | .setAftertouchTriggerDelay board_index value =>
      create_sysex board_index c.command_id [value >>> 4, value &&& 0xf]
  | .getAftertouchTriggerDelay board_index => create_zero_arg_sysex board_index c.command_id
  | .setLumatouchNoteOffDelay board_index value =>
      create_sysex board_index c.command_id
        [(value >>> 8) &&& 0xf, (value >>> 4) &&& 0xf, value &&& 0xf]
  | .getLumatouchNoteOffDelay board_index => create_zero_arg_sysex board_index c.command_id
  | .setExpressionPedalADCThreshold value =>
      create_sysex .server c.command_id
        [(value >>> 8) &&& 0xf, (value >>> 4) &&& 0xf, value &&& 0xf]
  | .getExpressionPedalADCThreshold => create_zero_arg_server_sysex c.command_id

-- ---------------------------------------------------------------------------
-- Response decoding (src/lumatone-core/src/midi/responses.rs)
-- ---------------------------------------------------------------------------

/-- decode_ping (src/lumatone-core/src/midi/responses.rs lines 280-309).  The outer
`Option` is the panic layer inherited from strip_sysex_markers; the inner `Except`
is the Result of the source. -/
def decode_ping (msg : List Nat) : Option (Except LumatoneMidiError Nat) := do
  let isl ← is_lumatone_message msg
  if isl = false then return .error (.notLumatoneMessage msg)
  match ← message_command_id msg with
  | .error e => return .error e
  | .ok cmd_id =>
    if cmd_id ≠ 0x33 then return .error (.unexpectedCommandId 0x33 cmd_id)
    match ← message_payload msg with
    | .error e => return .error e
    | .ok payload =>
      if payload.length < 4 then
        return .error (.messagePayloadTooShort 4 payload.length)
      if payload.getD 0 0 ≠ TEST_ECHO then return .error .invalidResponseMessage
      return .ok ((payload.getD 1 0 <<< 14) ||| (payload.getD 2 0 <<< 7) ||| payload.getD 3 0)

/-- unpack_12bit_from_4bit (src/lumatone-core/src/midi/responses.rs lines 521-527):
chunks_exact(3) over the payload; each chunk becomes `(c0 << 8) | (c1 << 4) | c2`
with NO masking of the bytes.  A trailing chunk shorter than 3 is discarded. -/
def unpack_12bit_from_4bit : List Nat → List Nat
  | c0 :: c1 :: c2 :: rest => ((c0 <<< 8) ||| (c1 <<< 4) ||| c2) :: unpack_12bit_from_4bit rest
  | _ => []

-- ---------------------------------------------------------------------------
-- Command submissions (src/midi/src/driver/submission.rs)
-- ---------------------------------------------------------------------------

/-- CommandSubmission: a command paired with the identity of its one-shot response
channel (`response_tx`); distinct submissions own distinct channels, modeled by the
numeric tag `subId`. -/
structure CommandSubmission where
  command : Command
  subId : Nat
  deriving Repr

-- ---------------------------------------------------------------------------
-- Driver state machine, newer variant (src/midi/src/driver/state.rs,
-- src/midi/src/driver/actions.rs, src/midi/src/driver/effects.rs)
-- ---------------------------------------------------------------------------

namespace DriverSM

/-- Action (src/midi/src/driver/actions.rs). -/
inductive Action where
  | submitCommand (sub : CommandSubmission)
  | messageSent (sub : CommandSubmission)
  | messageReceived (msg : EncodedSysex)
  | deviceBusy
  | responseDispatched
  | responseTimedOut
  | readyToRetry
  | queueEmpty
  deriving Repr

/-- Effect (src/midi/src/driver/effects.rs).  The result payload carried by
NotifyMessageResponse (decoded response or error) never influences the state machine
and is omitted; the notified submission is kept. -/
inductive Effect where
  | sendMidiMessage (sub : CommandSubmission)
  | startReceiveTimeout
  | startRetryTimeout
  | notifyMessageResponse (sub : CommandSubmission)
  | dispatchAction (action : Action)
  deriving Repr

/-- State (src/midi/src/driver/state.rs lines 18-54).  The stored `timeout_id` is a
Uuid that the machine never reads (the source generates a fresh one with
`Uuid::new_v4()` purely to satisfy the struct), so it is modeled as `Unit`.
`Failed` carries only the error variant; the source's message strings are dropped. -/
inductive State where
  | idle
  | processingQueue (send_queue : List CommandSubmission)
  | awaitingResponse (send_queue : List CommandSubmission) (command_sent : CommandSubmission)
      (timeout_id : Unit)
  | processingResponse (send_queue : List CommandSubmission) (command_sent : CommandSubmission)
      (response_msg : EncodedSysex)
  | waitingToRetry (send_queue : List CommandSubmission) (to_retry : CommandSubmission)
      (timeout_id : Unit)
  | failed (err : LumatoneMidiError)
  deriving Repr

/-- State::next (src/midi/src/driver/state.rs lines 103-296).  The match arms appear
in source order; `VecDeque::push_back` is `++ [x]` and `push_front` is `x :: q`. -/
def State.next (state : State) (action : Action) : State :=
  match action, state with
  | .submitCommand cmd, .idle => .processingQueue [cmd]
  | .submitCommand cmd, .awaitingResponse send_queue command_sent timeout_id =>
      .awaitingResponse (send_queue ++ [cmd]) command_sent timeout_id
  | .submitCommand cmd, .waitingToRetry send_queue to_retry timeout_id =>
      .waitingToRetry (send_queue ++ [cmd]) to_retry timeout_id
  | .submitCommand cmd, .processingQueue send_queue => .processingQueue (send_queue ++ [cmd])
  | .submitCommand cmd, .processingResponse send_queue command_sent response_msg =>
      .processingResponse (send_queue ++ [cmd]) command_sent response_msg
  | .messageSent command_sent, .processingQueue send_queue =>
      .awaitingResponse send_queue command_sent ()
  | .messageReceived response_msg, .awaitingResponse send_queue command_sent _ =>
      .processingResponse send_queue command_sent response_msg
  | .messageReceived _, state => state
  | .responseDispatched, .processingResponse send_queue _ _ => .processingQueue send_queue
  | .deviceBusy, .processingResponse send_queue command_sent _ =>
      .waitingToRetry send_queue command_sent ()
  | .responseTimedOut, .awaitingResponse send_queue _ _ => .processingQueue send_queue
  | .responseTimedOut, state => state
  | .readyToRetry, .waitingToRetry send_queue to_retry _ =>
      .processingQueue (to_retry :: send_queue)
  | .queueEmpty, .processingQueue send_queue =>
      if send_queue.isEmpty = false then .failed .invalidStateTransition else .idle
  | .readyToRetry, state => state
  | _, _ => .failed .invalidStateTransition

/-- State::enter (src/midi/src/driver/state.rs lines 304-376).  `enter(&mut self)`
can mutate the state (ProcessingQueue pops its front), so the model returns the
post-entry state together with the optional effect.  The outer `Option` is the
panic layer: entering ProcessingResponse evaluates is_response_to_message and
message_answer_code on the raw response bytes, which panic on a lone-SYSEX_END
message. -/
def State.enter : State → Option (State × Option Effect)
  | .idle => some (.idle, none)
  | .processingQueue send_queue =>
      match send_queue with
      | [] => some (.processingQueue [], some (.dispatchAction .queueEmpty))
      | cmd :: rest => some (.processingQueue rest, some (.sendMidiMessage cmd))
  | .waitingToRetry q r t => some (.waitingToRetry q r t, some .startRetryTimeout)
  | .awaitingResponse q s t => some (.awaitingResponse q s t, some .startReceiveTimeout)
  | .processingResponse q s m => do
      let _ ← is_response_to_message s.command.to_sysex_message m
      let status ← message_answer_code m
      match status with
      | .busy => some (.processingResponse q s m, some (.dispatchAction .deviceBusy))
      | .state => some (.processingResponse q s m, some (.dispatchAction .deviceBusy))
      | .error => some (.processingResponse q s m, some (.notifyMessageResponse s))
      | .nack => some (.processingResponse q s m, some (.notifyMessageResponse s))
      | .ack => some (.processingResponse q s m, some (.notifyMessageResponse s))
      | .unknown => some (.processingResponse q s m, none)
  | .failed e => some (.failed e, none)

/-- Submission channel ids held anywhere in a state (queue plus in-flight slot). -/
def State.subIds : State → List Nat
  | .idle => []
  | .processingQueue q => q.map CommandSubmission.subId
  | .awaitingResponse q s _ => s.subId :: q.map CommandSubmission.subId
  | .processingResponse q s _ => s.subId :: q.map CommandSubmission.subId
  | .waitingToRetry q s _ => s.subId :: q.map CommandSubmission.subId
  | .failed _ => []

/-- Submission channel ids introduced by an action. -/
def Action.subIds : Action → List Nat
  | .submitCommand sub => [sub.subId]
  | .messageSent sub => [sub.subId]
  | _ => []

/-- Feeding one action: the transition followed by the new state's entry step,
exactly as MidiApp::handle_driver_action does (src/midi/src/app.rs lines 117-123). -/
def applyAction (s : State) (a : Action) : Option (State × Option Effect) :=
  (s.next a).enter

/-- Feeding a whole list of actions, collecting the emitted effects.  A panic stops
the run (no further effects are produced). -/
def runActions : State → List Action → State × List Effect
  | s, [] => (s, [])
  | s, a :: rest =>
      match applyAction s a with
      | none => (s, [])
      | some (s', eff) =>
          let r := runActions s' rest
          (r.1, eff.toList ++ r.2)

/-- Submission ids notified by a list of effects. -/
def notifiedIds (effs : List Effect) : List Nat :=
  effs.filterMap fun e =>
    match e with
    | .notifyMessageResponse sub => some sub.subId
    | _ => none

end DriverSM

-- ---------------------------------------------------------------------------
-- Driver state machine and runtime loop, older complete variant
-- (src/midi/src/driver.rs: State, Action, Effect, MidiDriverInternal::run)
-- ---------------------------------------------------------------------------

namespace MidiDriver

/-- Action (src/midi/src/driver.rs lines 204-230). -/
inductive Action where
  | submitCommand (sub : CommandSubmission)
  | messageSent (sub : CommandSubmission)
  | messageReceived (msg : EncodedSysex)
  | deviceBusy
  | responseDispatched
  | responseTimedOut
  | readyToRetry
  | queueEmpty
  deriving Repr

/-- Effect (src/midi/src/driver.rs lines 250-263); the NotifyMessageResponse result
payload is omitted as it never influences the machine. -/
inductive Effect where
  | sendMidiMessage (sub : CommandSubmission)
  | startReceiveTimeout
  | startRetryTimeout
  | notifyMessageResponse (sub : CommandSubmission)
  deriving Repr

/-- State (src/midi/src/driver.rs lines 124-158): as the newer variant but without
timeout ids. -/
inductive State where
  | idle
  | processingQueue (send_queue : List CommandSubmission)
  | awaitingResponse (send_queue : List CommandSubmission) (command_sent : CommandSubmission)
  | processingResponse (send_queue : List CommandSubmission) (command_sent : CommandSubmission)
      (response_msg : EncodedSysex)
  | waitingToRetry (send_queue : List CommandSubmission) (to_retry : CommandSubmission)
  | failed (err : LumatoneMidiError)
  deriving Repr

/-- State::next (src/midi/src/driver.rs lines 283-446).  Unlike the newer
driver/state.rs variant, this match has NO arm for the DeviceBusy action: a
DeviceBusy dispatched by entering ProcessingResponse falls through to the final
catch-all and fails the machine with InvalidStateTransition. -/
def State.next (state : State) (action : Action) : State :=
  match action, state with
  | .submitCommand cmd, .idle => .processingQueue [cmd]
  | .submitCommand cmd, .awaitingResponse send_queue command_sent =>
      .awaitingResponse (send_queue ++ [cmd]) command_sent
  | .submitCommand cmd, .waitingToRetry send_queue to_retry =>
      .waitingToRetry (send_queue ++ [cmd]) to_retry
  | .submitCommand cmd, .processingQueue send_queue => .processingQueue (send_queue ++ [cmd])
  | .submitCommand cmd, .processingResponse send_queue command_sent response_msg =>
      .processingResponse (send_queue ++ [cmd]) command_sent response_msg
  | .messageSent command_sent, .processingQueue send_queue =>
      .awaitingResponse send_queue command_sent
  | .messageReceived response_msg, .awaitingResponse send_queue command_sent =>
      .processingResponse send_queue command_sent response_msg
  | .messageReceived _, state => state
  | .responseDispatched, .processingResponse send_queue _ _ => .processingQueue send_queue
  | .responseTimedOut, .awaitingResponse send_queue _ => .processingQueue send_queue
  | .responseTimedOut, state => state
  | .readyToRetry, .waitingToRetry send_queue to_retry =>
      .processingQueue (to_retry :: send_queue)
  | .queueEmpty, .processingQueue send_queue =>
      if send_queue.isEmpty = false then .failed .invalidStateTransition else .idle
  | .readyToRetry, state => state
  | _, _ => .failed .invalidStateTransition

/-- State::enter (src/midi/src/driver.rs lines 454-528): returns the post-entry state
(ProcessingQueue pops its front), an optional effect, and an optional follow-up
action.  `none` is the panic layer of the sysex helpers. -/
def State.enter : State → Option (State × Option Effect × Option Action)
  | .idle => some (.idle, none, none)
  | .processingQueue send_queue =>
      match send_queue with
      | [] => some (.processingQueue [], none, some .queueEmpty)
      | cmd :: rest =>
          some (.processingQueue rest, some (.sendMidiMessage cmd), some (.messageSent cmd))
  | .waitingToRetry q r => some (.waitingToRetry q r, some .startRetryTimeout, none)
  | .awaitingResponse q s => some (.awaitingResponse q s, some .startReceiveTimeout, none)
  | .processingResponse q s m => do
      let _ ← is_response_to_message s.command.to_sysex_message m
      let status ← message_answer_code m
      match status with
      | .busy => some (.processingResponse q s m, none, some .deviceBusy)
      | .state => some (.processingResponse q s m, none, some .deviceBusy)
      | .error =>
          some (.processingResponse q s m, some (.notifyMessageResponse s),
                some .responseDispatched)
      | .nack =>
          some (.processingResponse q s m, some (.notifyMessageResponse s),
                some .responseDispatched)
      | .ack =>
          some (.processingResponse q s m, some (.notifyMessageResponse s),
                some .responseDispatched)
      | .unknown => some (.processingResponse q s m, none, some .responseDispatched)
  | .failed e => some (.failed e, none, none)

/-- External events of the MidiDriverInternal::run select loop
(src/midi/src/driver.rs lines 662-742): an inbound submission, an inbound frame,
or one of the two timers firing.  The shutdown signal simply truncates the event
list. -/
inductive Event where
  | submit (sub : CommandSubmission)
  | receive (msg : EncodedSysex)
  | receiveTimeout
  | retryTimeout
  deriving Repr

/-- Action derived from a select-loop event (the tokio::select! arms). -/
def Action.ofEvent : Event → Action
  | .submit sub => .submitCommand sub
  | .receive msg => .messageReceived msg
  | .receiveTimeout => .responseTimedOut
  | .retryTimeout => .readyToRetry

/-- Externally observable outcomes of performing an effect
(MidiDriverInternal::perform_effect): a frame written to the transport, or a
result written to a submission's responder channel. -/
inductive Output where
  | sent (sub : CommandSubmission)
  | notified (sub : CommandSubmission)
  deriving Repr

def effectOutputs : Option Effect → List Output
  | some (.sendMidiMessage sub) => [.sent sub]
  | some (.notifyMessageResponse sub) => [.notified sub]
  | _ => []

/-- One iteration of the run loop (src/midi/src/driver.rs lines 668-738): derive the
action, transition, break on Failed, run the new state's entry step, perform its
effect, and feed the follow-up action back into the machine.  `none` models the
loop dying from a panic inside the entry step. -/
def step (s : State) (e : Event) : Option (State × List Output) :=
  match s.next (Action.ofEvent e) with
  | .failed err => some (.failed err, [])
  | s1 =>
      match s1.enter with
      | none => none
      | some (s2, eff, act) =>
          let s3 := match act with
            | some a => s2.next a
            | none => s2
          some (s3, effectOutputs eff)

/-- Running the loop over a list of events from a starting state, collecting the
outputs in order.  A panic terminates the loop. -/
def run : State → List Event → State × List Output
  | s, [] => (s, [])
  | s, e :: es =>
      match step s e with
      | none => (s, [])
      | some (s', outs) =>
          let r := run s' es
          (r.1, outs ++ r.2)

/-- Submission ids submitted by an event list, in order. -/
def submittedIds (events : List Event) : List Nat :=
  events.filterMap fun e =>
    match e with
    | .submit sub => some sub.subId
    | _ => none

/-- Submission ids whose responders are resolved by an output list, in order. -/
def notifiedIds (outs : List Output) : List Nat :=
  outs.filterMap fun o =>
    match o with
    | .notified sub => some sub.subId
    | _ => none

/-- Submission ids held in a state: the in-flight slot first, then the queue. -/
def State.subIds : State → List Nat
  | .idle => []
  | .processingQueue q => q.map CommandSubmission.subId
  | .awaitingResponse q s => s.subId :: q.map CommandSubmission.subId
  | .processingResponse q s _ => s.subId :: q.map CommandSubmission.subId
  | .waitingToRetry q s => s.subId :: q.map CommandSubmission.subId
  | .failed _ => []

def Event.subIds : Event → List Nat
  | .submit sub => [sub.subId]
  | _ => []

end MidiDriver

-- ---------------------------------------------------------------------------
-- Numeric string rendering and parsing (Rust `to_string` / `from_str_radix`)
-- ---------------------------------------------------------------------------

/-- Little-endian decimal digits with explicit fuel (for `fuel ≥ n` this agrees with
`Nat.digits 10 n`; the fuel keeps the recursion structural). -/
def render_digits : Nat → Nat → List Nat
  | _, 0 => []
  | 0, _ + 1 => []
  | fuel + 1, n + 1 => ((n + 1) % 10) :: render_digits fuel ((n + 1) / 10)

/-- Rendering of an unsigned integer in decimal, as Rust's `to_string` does. -/
def render_u (n : Nat) : String :=
  if n = 0 then "0" else String.mk ((render_digits n n).reverse.map Nat.digitChar)

/-- char::to_digit of the Rust standard library. -/
def char_to_digit (radix : Nat) (c : Char) : Option Nat :=
  let v :=
    if _h : '0' ≤ c ∧ c ≤ '9' then some (c.toNat - '0'.toNat)
    else if _h : 'a' ≤ c ∧ c ≤ 'z' then some (c.toNat - 'a'.toNat + 10)
    else if _h : 'A' ≤ c ∧ c ≤ 'Z' then some (c.toNat - 'A'.toNat + 10)
    else none
  match v with
  | some d => if d < radix then some d else none
  | none => none

def from_str_radix_core (radix : Nat) : List Char → Nat → Option Nat
  | [], acc => some acc
  | c :: rest, acc =>
      match char_to_digit radix c with
      | none => none
      | some d => from_str_radix_core radix rest (acc * radix + d)

/-- Rust's `uN::from_str_radix`: an optional leading plus sign, then at least one
digit, accumulating left to right with checked arithmetic.  For radix ≥ 2 the
accumulator grows monotonically, so the intermediate overflow checks of the source
are equivalent to a bound on the final value; `bound` is 2^N for `uN`. -/
def from_str_radix (radix bound : Nat) (s : String) : Option Nat :=
  let cs := match s.data with
    | '+' :: rest => rest
    | cs => cs
  if cs.isEmpty then none
  else
    match from_str_radix_core radix cs 0 with
    | none => none
    | some v => if v < bound then some v else none

/-- Rust's `i64::from_str_radix`, used by ltn.rs `bool_val`; only the sign handling
differs from the unsigned case. -/
def parse_i64 (s : String) : Option Int :=
  match s.data with
  | '-' :: rest =>
      if rest.isEmpty then none
      else
        match from_str_radix_core 10 rest 0 with
        | none => none
        | some v => if v ≤ 2 ^ 63 then some (-(v : Int)) else none
  | _ =>
      (from_str_radix 10 (2 ^ 63) s).map fun v => (v : Int)

/-- Two lower-case hex digits, as `format!` with the `02x` spec renders a u8. -/
def hex2 (n : Nat) : List Char := [Nat.digitChar (n / 16), Nat.digitChar (n % 16)]

/-- RGBColor::to_hex_string — six lower-case hex digits, zero padded, no prefix. -/
def RGBColor.to_hex_string (c : RGBColor) : String :=
  String.mk (hex2 c.r ++ hex2 c.g ++ hex2 c.b)

-- ---------------------------------------------------------------------------
-- Preset model (src/keymap/src/tables.rs and src/keymap/src/ltn.rs)
-- ---------------------------------------------------------------------------

namespace Keymap

/-- LumatoneKeymapError (src/lumatone-core/src/keymap/error.rs), payloads dropped. -/
inductive LumatoneKeymapError where
  | invalidTableDefinition
  | valueParseError
  | parseError
  deriving DecidableEq, Repr

/-- EditingStrategy (src/keymap/src/tables.rs). -/
inductive EditingStrategy where
  | freeDrawing
  | linearSegments
  | quadraticCurves
  deriving DecidableEq, Repr

/-- ConfigTableDefinition (src/keymap/src/tables.rs): a 128-entry table plus its
editing-strategy tag. -/
structure ConfigTableDefinition where
  table : SysexTable
  edit_strategy : EditingStrategy
  deriving DecidableEq, Repr

/-- ConfigTableDefinition::to_string: optional LINEAR / Quadratic tag directly
followed by the space-separated decimal table values. -/
def ConfigTableDefinition.toIniString (t : ConfigTableDefinition) : String :=
  let table_str := String.intercalate " " (t.table.map render_u)
  let pre : String :=
    match t.edit_strategy with
    | .linearSegments => "LINEAR"
    | .quadraticCurves => "Quadratic"
    | _ => ""
  pre ++ table_str

/-- ConfigTableDefinition::from_str.  The source writes the parsed values into a
fixed `[0; 128]` array indexed by the token position: fewer than 128 tokens is an
error, and more than 128 tokens panics on the out-of-bounds store (outer `none`). -/
def ConfigTableDefinition.fromIniString (s : String) :
    Option (Except LumatoneKeymapError ConfigTableDefinition) :=
  let p :=
    if s.startsWith "LINEAR" then (EditingStrategy.linearSegments, 6)
    else if s.startsWith "Quadratic" then (EditingStrategy.quadraticCurves, 9)
    else (EditingStrategy.freeDrawing, 0)
  let rest := s.drop p.2
  let tokens := rest.split Char.isWhitespace
  if tokens.length < 128 then some (.error .invalidTableDefinition)
  else if tokens.length > 128 then none
  else
    match tokens.mapM (from_str_radix 10 256) with
    | none => some (.error .invalidTableDefinition)
    | some table => some (.ok ⟨table, p.1⟩)

/-- parse_velocity_intervals (src/keymap/src/tables.rs): 127 decimal u16 values;
more than 127 tokens panics on the fixed-size array store. -/
def parse_velocity_intervals (s : String) :
    Option (Except LumatoneKeymapError VelocityIntervalTable) :=
  let tokens := s.split Char.isWhitespace
  if tokens.length < 127 then some (.error .invalidTableDefinition)
  else if tokens.length > 127 then none
  else
    match tokens.mapM (from_str_radix 10 65536) with
    | none => some (.error .invalidTableDefinition)
    | some table => some (.ok table)

/-- velocity_intervals_to_string (src/keymap/src/tables.rs). -/
def velocity_intervals_to_string (table : VelocityIntervalTable) : String :=
  String.intercalate " " (table.map render_u)

/-- ConfigurationTables (src/keymap/src/tables.rs). -/
structure ConfigurationTables where
  on_off_velocity : Option ConfigTableDefinition
  fader_velocity : Option ConfigTableDefinition
  aftertouch_velocity : Option ConfigTableDefinition
  lumatouch_velocity : Option ConfigTableDefinition
  velocity_intervals : Option VelocityIntervalTable
  deriving DecidableEq, Repr

/-- Default impl: every table absent. -/
def ConfigurationTables.default : ConfigurationTables := ⟨none, none, none, none, none⟩

/-- KeyDefinition (src/keymap/src/ltn.rs). -/
structure KeyDefinition where
  function : LumatoneKeyFunction
  color : RGBColor
  deriving DecidableEq, Repr

/-- GeneralOptions (src/keymap/src/ltn.rs). -/
structure GeneralOptions where
  after_touch_active : Bool
  light_on_key_strokes : Bool
  invert_foot_controller : Bool
  invert_sustain : Bool
  expression_controller_sensitivity : Nat
  config_tables : ConfigurationTables
  deriving DecidableEq, Repr

/-- Default impl for GeneralOptions. -/
def GeneralOptions.default : GeneralOptions :=
  ⟨false, false, false, false, 0, ConfigurationTables.default⟩

/-- LumatoneKeyMap (src/keymap/src/ltn.rs): the per-key HashMap is modeled as an
association list whose order stands for the (unspecified) hash-map iteration
order; `set_key` semantics keep locations distinct. -/
structure LumatoneKeyMap where
  keys : List (LumatoneKeyLocation × KeyDefinition)
  general : GeneralOptions
  deriving DecidableEq, Repr

/-- LumatoneKeyMap::new. -/
def LumatoneKeyMap.new : LumatoneKeyMap := ⟨[], GeneralOptions.default⟩

-- ---------------------------------------------------------------------------
-- INI model.  The rust-ini `Ini` value is a map from section name (None for the
-- general section) to an ordered property list.  Property names are modeled by an
-- inductive type whose constructors stand for the distinct strings ltn.rs uses;
-- in particular the renderer's `NoteOnOffVelocityCrvTbl` and the parser's
-- `NoteOnOffVelocityCurveTbl` are distinct strings, hence distinct constructors.
-- Rendering the Ini to text and re-loading it (`write_to_string` followed by
-- `Ini::load_from_str`) is the identity on this map and is not modeled.
-- ---------------------------------------------------------------------------

inductive PropKey where
  | afterTouchActive
  | lightOnKeyStrokes
  | invertFootController
  | invertSustain
  | exprCtrlSensivity
  | velocityIntrvlTbl
  | noteOnOffVelocityCrvTbl
  | noteOnOffVelocityCurveTbl
  | faderConfigKey
  | afterTouchConfigKey
  | lumaTouchConfigKey
  | keyN (n : Nat)
  | chanN (n : Nat)
  | colN (n : Nat)
  | ktypN (n : Nat)
  deriving DecidableEq, Repr

abbrev Props := List (PropKey × String)

/-- Properties::get — first binding of the key. -/
def props_get (props : Props) (k : PropKey) : Option String :=
  (props.find? fun p => p.1 = k).map Prod.snd

/-- SectionSetter::set — replace the existing binding or append a new one. -/
def props_set : Props → PropKey → String → Props
  | [], k, v => [(k, v)]
  | (k', v') :: rest, k, v =>
      if k' = k then (k, v) :: rest else (k', v') :: props_set rest k v

structure Ini where
  sections : List (Option String × Props)
  deriving DecidableEq, Repr

def Ini.empty : Ini := ⟨[]⟩

/-- Ini::section — look up a section by name (None is the general section). -/
def Ini.section (ini : Ini) (name : Option String) : Option Props :=
  (ini.sections.find? fun s => s.1 = name).map Prod.snd

def sections_set : List (Option String × Props) → Option String → PropKey → String →
    List (Option String × Props)
  | [], name, k, v => [(name, props_set [] k v)]
  | (n, ps) :: rest, name, k, v =>
      if n = name then (n, props_set ps k v) :: rest
      else (n, ps) :: sections_set rest name k v

/-- with_section(name).set(k, v) / with_general_section().set(k, v). -/
def Ini.set (ini : Ini) (name : Option String) (k : PropKey) (v : String) : Ini :=
  ⟨sections_set ini.sections name k v⟩

/-- Section name of board `b` of the loop `for b in 1..=5`: `Board{b-1}`. -/
def board_name (b : Nat) : String := "Board" ++ render_u (b - 1)

/-- The board loop of to_ini / from_ini_str: `for b in 1..=5` with
`FromPrimitive::from_u8(b).unwrap()`, which cannot panic on this range. -/
def board_loop : List (Nat × BoardIndex) :=
  [(1, .octave1), (2, .octave2), (3, .octave3), (4, .octave4), (5, .octave5)]

/-- The `bool_str` closure of to_ini: `1` / `0`. -/
def bool_str (b : Bool) : String := if b then "1" else "0"

/-- bool_val (src/keymap/src/ltn.rs lines 330-333). -/
def bool_val (s : String) : Bool := ((parse_i64 s).getD 0) ≠ 0

/-- get_u8_or_default_from_ini_section (src/keymap/src/ltn.rs lines 335-344). -/
def get_u8_or_default (sec : Props) (key : PropKey) (default_val : Nat) : Nat :=
  match props_get sec key with
  | none => default_val
  | some v => (from_str_radix 10 256 v).getD default_val

/-- config_table_from_ini_section (src/keymap/src/ltn.rs lines 37-45). -/
def config_table_from_ini_section (sec : Props) (key : PropKey) :
    Option (Except LumatoneKeymapError (Option ConfigTableDefinition)) :=
  match props_get sec key with
  | some val => (ConfigTableDefinition.fromIniString val).map fun r => r.map some
  | none => some (.ok none)

/-- The `VelocityIntrvlTbl` read of GeneralOptions::from_ini_section. -/
def velocity_intervals_from_ini_section (props : Props) :
    Option (Except LumatoneKeymapError (Option VelocityIntervalTable)) :=
  match props_get props .velocityIntrvlTbl with
  | some val =>
      match parse_velocity_intervals val with
      | none => none
      | some (.error e) => some (.error e)
      | some (.ok t) => some (.ok (some t))
  | none => some (.ok none)

/-- GeneralOptions::from_ini_section (src/keymap/src/ltn.rs lines 48-82).  Note the
key read for the on/off velocity curve is `NoteOnOffVelocityCurveTbl`, and that a
present but unparsable `ExprCtrlSensivity` panics (`expect`), the outer `none`. -/
def GeneralOptions.from_ini_section (props : Props) :
    Option (Except LumatoneKeymapError GeneralOptions) := do
  let on_off_res ← config_table_from_ini_section props .noteOnOffVelocityCurveTbl
  match on_off_res with
  | .error e => return .error e
  | .ok on_off_velocity =>
  let fader_res ← config_table_from_ini_section props .faderConfigKey
  match fader_res with
  | .error e => return .error e
  | .ok fader_velocity =>
  let at_res ← config_table_from_ini_section props .afterTouchConfigKey
  match at_res with
  | .error e => return .error e
  | .ok aftertouch_velocity =>
  let lt_res ← config_table_from_ini_section props .lumaTouchConfigKey
  match lt_res with
  | .error e => return .error e
  | .ok lumatouch_velocity =>
  let vi_res ← velocity_intervals_from_ini_section props
  match vi_res with
  | .error e => return .error e
  | .ok velocity_intervals =>
  let sensitivity ←
    match props_get props .exprCtrlSensivity with
    | some s =>
        match from_str_radix 10 256 s with
        | none => none
        | some v => some v
    | none => some 0
  return .ok
    { after_touch_active := ((props_get props .afterTouchActive).map bool_val).getD false
      light_on_key_strokes := ((props_get props .lightOnKeyStrokes).map bool_val).getD false
      invert_foot_controller := ((props_get props .invertFootController).map bool_val).getD false
      invert_sustain := ((props_get props .invertSustain).map bool_val).getD false
      expression_controller_sensitivity := sensitivity
      config_tables :=
        ⟨on_off_velocity, fader_velocity, aftertouch_velocity, lumatouch_velocity,
         velocity_intervals⟩ }

-- ---------------------------------------------------------------------------
-- LumatoneKeyMap::to_ini (src/keymap/src/ltn.rs lines 127-231)
-- ---------------------------------------------------------------------------

/-- Property writes of one explicitly-set key: Key_N, Chan_N, Col_N, and KTyp_N
only when the key type code is not 1 (NoteOnOff). -/
def explicit_key_sets (conf : Ini) (name : String) (loc : LumatoneKeyLocation)
    (d : KeyDefinition) : Ini :=
  let ki := loc.key_index.val
  let conf := conf.set (some name) (.keyN ki) (render_u d.function.note_or_cc_num)
  let conf := conf.set (some name) (.chanN ki) (render_u d.function.midi_channel_byte)
  let conf := conf.set (some name) (.colN ki) d.color.to_hex_string
  if d.function.key_type_code ≠ 1 then
    conf.set (some name) (.ktypN ki) (render_u d.function.key_type_code)
  else conf

/-- Property writes for a key location not present in the map: the explicit
"disabled" defaults. -/
def default_key_sets (conf : Ini) (name : String) (k : Nat) : Ini :=
  (((conf.set (some name) (.keyN k) "0").set
      (some name) (.chanN k) "1").set
      (some name) (.colN k) "000000").set
      (some name) (.ktypN k) "4"

/-- Writes of one `[BoardN]` section of to_ini: the explicit keys of that board in
map-iteration order, then the disabled defaults for every missing key index. -/
def board_sets (km : LumatoneKeyMap) (conf : Ini) (b : Nat) (board_index : BoardIndex) : Ini :=
  let name := board_name b
  let keys := km.keys.filter fun e => e.1.board_index = board_index
  let conf := keys.foldl (fun conf e => explicit_key_sets conf name e.1 e.2) conf
  (List.finRange 56).foldl
    (fun conf k =>
      if km.keys.any fun e => e.1 = ⟨board_index, k⟩ then conf
      else default_key_sets conf name k.val)
    conf

/-- The general-section writes of to_ini: the five option values, then each present
table, all under the general (None) section; the on/off velocity curve is written
under the key `NoteOnOffVelocityCrvTbl`. -/
def general_sets (km : LumatoneKeyMap) : Ini :=
  let conf := Ini.empty
  let conf := conf.set none .afterTouchActive (bool_str km.general.after_touch_active)
  let conf := conf.set none .lightOnKeyStrokes (bool_str km.general.light_on_key_strokes)
  let conf := conf.set none .invertFootController (bool_str km.general.invert_foot_controller)
  let conf := conf.set none .invertSustain (bool_str km.general.invert_sustain)
  let conf := conf.set none .exprCtrlSensivity
    (render_u km.general.expression_controller_sensitivity)
  let conf := match km.general.config_tables.velocity_intervals with
    | some t => conf.set none .velocityIntrvlTbl (velocity_intervals_to_string t)
    | none => conf
  let conf := match km.general.config_tables.on_off_velocity with
    | some t => conf.set none .noteOnOffVelocityCrvTbl t.toIniString
    | none => conf
  let conf := match km.general.config_tables.fader_velocity with
    | some t => conf.set none .faderConfigKey t.toIniString
    | none => conf
  let conf := match km.general.config_tables.aftertouch_velocity with
    | some t => conf.set none .afterTouchConfigKey t.toIniString
    | none => conf
  match km.general.config_tables.lumatouch_velocity with
  | some t => conf.set none .lumaTouchConfigKey t.toIniString
  | none => conf

/-- LumatoneKeyMap::to_ini: the general-section writes followed by the five board
sections. -/
def LumatoneKeyMap.to_ini (km : LumatoneKeyMap) : Ini :=
  board_loop.foldl (fun conf e => board_sets km conf e.1 e.2) (general_sets km)

-- ---------------------------------------------------------------------------
-- LumatoneKeyMap::from_ini_str (src/keymap/src/ltn.rs lines 233-291)
-- ---------------------------------------------------------------------------

/-- Parse of one key index of a board section: defaults for missing keys, the
key-type dispatch (unknown codes become Disabled), and the color field whose parse
failure is the only error. -/
def parse_board_key (sec : Props) (b : BoardIndex) (k : Fin 56) :
    Except LumatoneKeymapError (LumatoneKeyLocation × KeyDefinition) := do
  let key_type_code := get_u8_or_default sec (.ktypN k.val) 1
  let note_or_cc_num := get_u8_or_default sec (.keyN k.val) 0
  let chan := get_u8_or_default sec (.chanN k.val) 1
  let color_str := (props_get sec (.colN k.val)).getD "000000"
  let color_u32 ←
    match from_str_radix 16 (2 ^ 32) color_str with
    | none => Except.error LumatoneKeymapError.valueParseError
    | some v => Except.ok v
  let color := RGBColor.fromU32 color_u32
  let channel := (MidiChannel.new chan).getD MidiChannel.default
  let function :=
    match key_type_code with
    | 1 => LumatoneKeyFunction.noteOnOff channel note_or_cc_num
    | 2 => LumatoneKeyFunction.continuousController channel note_or_cc_num false
    | 3 => LumatoneKeyFunction.lumaTouch channel note_or_cc_num false
    | 4 => LumatoneKeyFunction.disabled
    | _ => LumatoneKeyFunction.disabled
  return (⟨b, k⟩, ⟨function, color⟩)

/-- All 56 key parses of one board section, in index order. -/
def parse_board_keys (sec : Props) (b : BoardIndex) :
    Except LumatoneKeymapError (List (LumatoneKeyLocation × KeyDefinition)) :=
  (List.finRange 56).mapM (parse_board_key sec b)

/-- The board loop of from_ini_str.  Each existing section first overwrites the
general options (when its GeneralOptions parse is Ok) and then contributes its 56
key entries; HashMap::insert is modeled by appending (all inserted locations are
distinct). -/
def from_ini_boards (ini : Ini) : List (Nat × BoardIndex) → GeneralOptions →
    List (LumatoneKeyLocation × KeyDefinition) →
    Option (Except LumatoneKeymapError
      (GeneralOptions × List (LumatoneKeyLocation × KeyDefinition)))
  | [], g, ks => some (.ok (g, ks))
  | (b, bi) :: rest, g, ks =>
      match ini.section (some (board_name b)) with
      | none => from_ini_boards ini rest g ks
      | some sec =>
          match GeneralOptions.from_ini_section sec with
          | none => none
          | some go_res =>
              let g' := match go_res with
                | .ok go => go
                | .error _ => g
              match parse_board_keys sec bi with
              | .error e => some (.error e)
              | .ok newKeys => from_ini_boards ini rest g' (ks ++ newKeys)

/-- LumatoneKeyMap::from_ini_str, modulo the text layer: `Ini::load_from_str` of the
rendered text is the identity on the section map.  Only the `[Board0]..[Board4]`
sections are read; the general section is never consulted. -/
def LumatoneKeyMap.from_ini (ini : Ini) : Option (Except LumatoneKeymapError LumatoneKeyMap) :=
  (from_ini_boards ini board_loop GeneralOptions.default []).map fun r =>
    r.map fun p => ⟨p.2, p.1⟩

/-- Lookup in the keys association list (HashMap::get; later inserts shadow earlier
ones, hence the reversed search). -/
def keys_lookup (keys : List (LumatoneKeyLocation × KeyDefinition))
    (loc : LumatoneKeyLocation) : Option KeyDefinition :=
  (keys.reverse.find? fun e => e.1 = loc).map Prod.snd

-- ---------------------------------------------------------------------------
-- LumatoneKeyMap::to_midi_commands (src/keymap/src/ltn.rs lines 293-326)
-- ---------------------------------------------------------------------------

def LumatoneKeyMap.to_midi_commands (km : LumatoneKeyMap) : List Command :=
  let commands : List Command :=
    [.setAftertouchEnabled km.general.after_touch_active,
     .setLightOnKeystrokes km.general.light_on_key_strokes,
     .invertFootController km.general.invert_foot_controller,
     .invertSustainPedal km.general.invert_sustain,
     .setExpressionPedalSensitivity km.general.expression_controller_sensitivity]
  let tables := km.general.config_tables
  let commands := match tables.on_off_velocity with
    | some t => commands ++ [.setVelocityConfig t.table]
    | none => commands
  let commands := match tables.aftertouch_velocity with
    | some t => commands ++ [.setAftertouchConfig t.table]
    | none => commands
  let commands := match tables.fader_velocity with
    | some t => commands ++ [.setFaderConfig t.table]
    | none => commands
  let commands := match tables.lumatouch_velocity with
    | some t => commands ++ [.setLumatouchConfig t.table]
    | none => commands
  let commands := match tables.velocity_intervals with
    | some t => commands ++ [.setVelocityIntervals t]
    | none => commands
  commands ++ km.keys.flatMap fun e =>
    [.setKeyFunction e.1 e.2.function, .setKeyColor e.1 e.2.color]

/-- The key definition that a round trip through the INI text form assigns to a key
location, given what the original preset assigned to it: an absent key becomes the
explicit disabled key with black color, and the fader-up-is-null flag is cleared
because the INI key-type code does not carry it. -/
def clear_fader_null : LumatoneKeyFunction → LumatoneKeyFunction
  | .continuousController ch n _ => .continuousController ch n false
  | .lumaTouch ch n _ => .lumaTouch ch n false
  | f => f

def normalize_entry : Option KeyDefinition → KeyDefinition
  | none => ⟨.disabled, ⟨0, 0, 0⟩⟩
  | some d => ⟨clear_fader_null d.function, d.color⟩

/-- Well-formedness mirroring the Rust types: HashMap keys are distinct, and the
u8-typed fields are below 256. -/
def wf (km : LumatoneKeyMap) : Prop :=
  (km.keys.map Prod.fst).Nodup ∧
  ∀ e ∈ km.keys, e.2.function.note_or_cc_num < 256 ∧
    e.2.color.r < 256 ∧ e.2.color.g < 256 ∧ e.2.color.b < 256

instance (km : LumatoneKeyMap) : Decidable (wf km) := by
  unfold wf; infer_instance

/-- Modelled from the claim text of C6: the compile order asserted by the claim,
with one SetKeyFunction / SetKeyColor pair for every one of the 280 key locations
in board-major key-index-minor order, absent keys appearing as explicit disabled
keys.  This is the claim's prediction, to be compared against to_midi_commands. -/
def to_midi_commands_per_claim (km : LumatoneKeyMap) : List Command :=
  let commands : List Command :=
    [.setAftertouchEnabled km.general.after_touch_active,
     .setLightOnKeystrokes km.general.light_on_key_strokes,
     .invertFootController km.general.invert_foot_controller,
     .invertSustainPedal km.general.invert_sustain,
     .setExpressionPedalSensitivity km.general.expression_controller_sensitivity]
  let tables := km.general.config_tables
  let commands := commands
    ++ (tables.on_off_velocity.map fun t => Command.setVelocityConfig t.table).toList
    ++ (tables.aftertouch_velocity.map fun t => Command.setAftertouchConfig t.table).toList
    ++ (tables.fader_velocity.map fun t => Command.setFaderConfig t.table).toList
    ++ (tables.lumatouch_velocity.map fun t => Command.setLumatouchConfig t.table).toList
    ++ (tables.velocity_intervals.map fun t => Command.setVelocityIntervals t).toList
  commands ++
    [BoardIndex.octave1, .octave2, .octave3, .octave4, .octave5].flatMap fun bi =>
      (List.finRange 56).flatMap fun k =>
        let loc : LumatoneKeyLocation := ⟨bi, k⟩
        let d := normalize_entry (keys_lookup km.keys loc)
        [.setKeyFunction loc d.function, .setKeyColor loc d.color]

/-- Props-level shadow of explicit_key_sets: the same four writes at the level of
one section's property list. -/
def explicit_key_props (ps : Props) (loc : LumatoneKeyLocation) (d : KeyDefinition) : Props :=
  let ki := loc.key_index.val
  let ps := props_set ps (.keyN ki) (render_u d.function.note_or_cc_num)
  let ps := props_set ps (.chanN ki) (render_u d.function.midi_channel_byte)
  let ps := props_set ps (.colN ki) d.color.to_hex_string
  if d.function.key_type_code ≠ 1 then
    props_set ps (.ktypN ki) (render_u d.function.key_type_code)
  else ps

/-- Props-level shadow of default_key_sets. -/
def default_key_props (ps : Props) (k : Nat) : Props :=
  props_set (props_set (props_set (props_set ps
    (.keyN k) "0") (.chanN k) "1") (.colN k) "000000") (.ktypN k) "4"

/-- The property list that to_ini leaves in board section `[Board(b-1)]` for the
board with index `bi`: the explicit keys of the board in map order, then the
disabled defaults for the missing key indices. -/
def board_props (km : LumatoneKeyMap) (bi : BoardIndex) : Props :=
  let ps := (km.keys.filter fun e => e.1.board_index = bi).foldl
    (fun ps e => explicit_key_props ps e.1 e.2) []
  (List.finRange 56).foldl
    (fun ps k => if km.keys.any fun e => e.1 = ⟨bi, k⟩ then ps else default_key_props ps k.val)
    ps

/-- Property keys that to_ini writes into board sections. -/
def PropKey.is_key_prop : PropKey → Bool
  | .keyN _ => true
  | .chanN _ => true
  | .colN _ => true
  | .ktypN _ => true
  | _ => false

/-- The key list produced by parsing the INI rendering of a preset: all 280 key
locations in board-major key-index-minor order, each carrying the preset's key
definition normalized (absent keys disabled and black, fader-up-null cleared). -/
def roundKeys (km : LumatoneKeyMap) : List (LumatoneKeyLocation × KeyDefinition) :=
  board_loop.flatMap fun e =>
    (List.finRange 56).map fun k =>
      (⟨e.2, k⟩, normalize_entry (keys_lookup km.keys ⟨e.2, k⟩))

/-- The compile order that to_midi_commands actually produces, stated independently:
the five global commands, the present curves in source order (on/off velocity,
aftertouch, fader, lumatouch), the velocity intervals when present, and one
SetKeyFunction immediately followed by SetKeyColor per explicitly set key in
map-iteration order; unset locations contribute nothing. -/
def to_midi_commands_amended_spec (km : LumatoneKeyMap) : List Command :=
  [.setAftertouchEnabled km.general.after_touch_active,
   .setLightOnKeystrokes km.general.light_on_key_strokes,
   .invertFootController km.general.invert_foot_controller,
   .invertSustainPedal km.general.invert_sustain,
   .setExpressionPedalSensitivity km.general.expression_controller_sensitivity]
  ++ (km.general.config_tables.on_off_velocity.map
        fun t => Command.setVelocityConfig t.table).toList
  ++ (km.general.config_tables.aftertouch_velocity.map
        fun t => Command.setAftertouchConfig t.table).toList
  ++ (km.general.config_tables.fader_velocity.map
        fun t => Command.setFaderConfig t.table).toList
  ++ (km.general.config_tables.lumatouch_velocity.map
        fun t => Command.setLumatouchConfig t.table).toList
  ++ (km.general.config_tables.velocity_intervals.map
        fun t => Command.setVelocityIntervals t).toList
  ++ km.keys.flatMap fun e =>
       [.setKeyFunction e.1 e.2.function, .setKeyColor e.1 e.2.color]

end Keymap

/-- Modelled from the spec: the device's Ack echo of a ping frame, per the response
frame layout of spec section 6.1 — the same bytes as the outgoing `encode_ping`
frame with the status byte `01` (Ack) inserted at offset 5 after the start marker,
which is where the decoder expects it. -/
def device_echo_frame (v : Nat) : List Nat :=
  (encode_ping v).take 6 ++ [0x01] ++ (encode_ping v).drop 6

-- ===========================================================================
-- Theorems
-- ===========================================================================

/-- Characterization of the stripping panic: the lone end marker is the only input
on which strip_sysex_markers dies (usize underflow on `end -= 1`). -/
theorem strip_none_iff (msg : List Nat) : strip_sysex_markers msg = none ↔ msg = [0xf7] := by
  constructor
  · intro h
    match msg with
    | [] => simp [strip_sysex_markers] at h
    | [a] =>
      by_cases ha : a = 0xf7
      · subst ha; rfl
      · simp [strip_sysex_markers, SYSEX_END, SYSEX_START, ha] at h
    | a :: b :: rest =>
      simp only [strip_sysex_markers, List.length_cons, SYSEX_END, SYSEX_START] at h
      split_ifs at h <;> omega
  · rintro rfl; rfl

/-- C8: for every input byte string — including the empty string, one-byte strings
(such as a lone 0xF7 end marker), and frames shorter than the payload offset —
strip_sysex_markers and message_payload return normally without panicking.  The
claim is RIGHT and the code is WRONG: on the one-byte input [0xF7] the source
computes `end = msg.len() - 1 = 0` and then `end -= 1`, a usize underflow, so the
function panics (debug: overflow panic; release: the wrapped slice bound panics).
The model returns `none` exactly there, and message_payload inherits the panic. -/
theorem C8_short_frames :
    (∀ msg : List Nat, strip_sysex_markers msg = none ↔ msg = [0xf7]) ∧
    strip_sysex_markers [0xf7] = none ∧
    message_payload [0xf7] = none ∧
    message_payload [] = some (.error (.messageTooShort 7 0)) ∧
    strip_sysex_markers [0xf0, 0x00, 0x21, 0x50] = some [0x00, 0x21, 0x50] := by
  exact ⟨strip_none_iff, rfl, rfl, rfl, rfl⟩

/-- C9 counterexample: the decoder does not mask the nibbles.  On the chunk
[16, 0, 0] it returns 4096, which violates both the claimed masked formula (that
gives 0) and the claimed bound (4096 < 4096 is false). -/
theorem C9_counterexample :
    unpack_12bit_from_4bit [16, 0, 0] = [4096] ∧
    (((16 &&& 0xf) <<< 8) ||| ((0 &&& 0xf) <<< 4) ||| (0 &&& 0xf) : Nat) = 0 ∧
    ¬ (4096 : Nat) < 4096 := by
  exact ⟨rfl, rfl, by omega⟩

/-- C9 amended: the decoder computes `(n0 << 8) | (n1 << 4) | n2` without masking;
when the payload bytes are genuine nibbles (< 16, as a 7-bit-clean device sends),
the decoded value agrees with the claimed masked formula and is below 4096. -/
theorem C9_amended (n0 n1 n2 : Nat) (rest : List Nat)
    (h0 : n0 < 16) (h1 : n1 < 16) (h2 : n2 < 16) :
    unpack_12bit_from_4bit (n0 :: n1 :: n2 :: rest)
      = (((n0 &&& 0xf) <<< 8) ||| ((n1 &&& 0xf) <<< 4) ||| (n2 &&& 0xf))
          :: unpack_12bit_from_4bit rest ∧
    ((n0 <<< 8) ||| (n1 <<< 4) ||| n2) < 4096 := by
  have e15 : (0xf : Nat) = 2 ^ 4 - 1 := by norm_num
  have m0 : n0 &&& 0xf = n0 := by
    rw [e15, Nat.and_pow_two_sub_one_eq_mod]; omega
  have m1 : n1 &&& 0xf = n1 := by
    rw [e15, Nat.and_pow_two_sub_one_eq_mod]; omega
  have m2 : n2 &&& 0xf = n2 := by
    rw [e15, Nat.and_pow_two_sub_one_eq_mod]; omega
  refine ⟨?_, ?_⟩
  · rw [m0, m1, m2]; rfl
  · have b0 : n0 <<< 8 < 2 ^ 12 := by rw [Nat.shiftLeft_eq]; omega
    have b1 : n1 <<< 4 < 2 ^ 12 := by rw [Nat.shiftLeft_eq]; omega
    have b2 : n2 < 2 ^ 12 := by omega
    have := Nat.or_lt_two_pow (Nat.or_lt_two_pow b0 b1) b2
    omega

theorem C9_amended_witness :
    (1 : Nat) < 16 ∧ (2 : Nat) < 16 ∧ (3 : Nat) < 16 ∧
    (unpack_12bit_from_4bit [1, 2, 3]
        = [((1 &&& 0xf) <<< 8) ||| ((2 &&& 0xf) <<< 4) ||| (3 &&& 0xf)] ∧
      ((1 <<< 8) ||| (2 <<< 4) ||| 3 : Nat) < 4096) :=
  ⟨by omega, by omega, by omega,
   C9_amended 1 2 3 [] (by omega) (by omega) (by omega)⟩

/-- C10 counterexample: a key location on the Server board is constructible through
the public constructors: key_loc_unchecked accepts board byte 0 (Server) without
panicking, and the tuple constructor accepts Server directly. -/
theorem C10_counterexample :
    key_loc_unchecked 0 0 = some ⟨.server, (0 : Fin 56)⟩ ∧
    (LumatoneKeyLocation.mk .server (0 : Fin 56)).board_index = .server := by
  exact ⟨rfl, rfl⟩

/-- C10 amended: the constructors enforce only the range bounds — any board byte
0..=5 (including 0, the Server board) and any key index 0..=55 is accepted, and
board byte 0 always produces a Server-board key location. -/
theorem C10_amended (b k : Nat) :
    ((key_loc_unchecked b k).isSome ↔ (b < 6 ∧ k < 56)) ∧
    (∀ loc, key_loc_unchecked 0 k = some loc → loc.board_index = .server) := by
  constructor
  · unfold key_loc_unchecked BoardIndex.fromByte LumatoneKeyIndex.unchecked
    match b with
    | 0 | 1 | 2 | 3 | 4 | 5 => by_cases hk : k < 56 <;> simp [hk]
    | n + 6 => simp
  · intro loc h
    by_cases hk : k < 56
    · have e : key_loc_unchecked 0 k = some ⟨.server, ⟨k, hk⟩⟩ := by
        simp [key_loc_unchecked, BoardIndex.fromByte, LumatoneKeyIndex.unchecked, hk]
      rw [e] at h; cases h; rfl
    · have e : key_loc_unchecked 0 k = none := by
        simp [key_loc_unchecked, BoardIndex.fromByte, LumatoneKeyIndex.unchecked, hk]
      rw [e] at h; cases h

theorem C10_amended_witness :
    ((key_loc_unchecked 0 0).isSome ↔ ((0 : Nat) < 6 ∧ (0 : Nat) < 56)) ∧
    (∀ loc, key_loc_unchecked 0 0 = some loc → loc.board_index = .server) :=
  C10_amended 0 0

/-- Packing a value into three 7-bit bytes after a 28-bit mask and reassembling
keeps exactly the low 21 bits. -/
theorem ping_pack_unpack (v : Nat) :
    ((((v &&& 0xfffffff) >>> 14) &&& 0x7f) <<< 14) |||
      ((((v &&& 0xfffffff) >>> 7) &&& 0x7f) <<< 7) |||
      ((v &&& 0xfffffff) &&& 0x7f) = v % 2097152 := by
  have h7 : (0x7f : Nat) = 2 ^ 7 - 1 := by norm_num
  have h28 : (0xfffffff : Nat) = 2 ^ 28 - 1 := by norm_num
  rw [h7, h28, Nat.and_pow_two_sub_one_eq_mod, Nat.and_pow_two_sub_one_eq_mod,
      Nat.and_pow_two_sub_one_eq_mod, Nat.and_pow_two_sub_one_eq_mod,
      Nat.shiftRight_eq_div_pow, Nat.shiftRight_eq_div_pow,
      Nat.shiftLeft_eq, Nat.shiftLeft_eq]
  set x := v % 2 ^ 28 with hx
  have hxlt : x < 2 ^ 28 := Nat.mod_lt v (by norm_num)
  have e1 : (x / 2 ^ 14 % 2 ^ 7) * 2 ^ 14 ||| (x / 2 ^ 7 % 2 ^ 7) * 2 ^ 7
      = (x / 2 ^ 14 % 2 ^ 7) * 2 ^ 14 + (x / 2 ^ 7 % 2 ^ 7) * 2 ^ 7 := by
    rw [mul_comm (x / 2 ^ 14 % 2 ^ 7) (2 ^ 14)]
    refine (Nat.mul_add_lt_is_or ?_ _).symm
    have := Nat.mod_lt (x / 2 ^ 7) (y := 2 ^ 7) (by norm_num)
    calc (x / 2 ^ 7 % 2 ^ 7) * 2 ^ 7 < 2 ^ 7 * 2 ^ 7 := by omega
    _ = 2 ^ 14 := by norm_num
  rw [e1]
  have e2 : (x / 2 ^ 14 % 2 ^ 7) * 2 ^ 14 + (x / 2 ^ 7 % 2 ^ 7) * 2 ^ 7
      = 2 ^ 7 * ((x / 2 ^ 14 % 2 ^ 7) * 2 ^ 7 + x / 2 ^ 7 % 2 ^ 7) := by ring
  rw [e2]
  rw [← Nat.mul_add_lt_is_or (b := x % 2 ^ 7) (Nat.mod_lt x (by norm_num)) _]
  have d1 := Nat.mod_lt (x / 2 ^ 14) (y := 2 ^ 7) (by norm_num)
  have d2 := Nat.mod_lt (x / 2 ^ 7) (y := 2 ^ 7) (by norm_num)
  have d3 := Nat.mod_lt x (y := 2 ^ 7) (by norm_num)
  simp only [show (2 : Nat) ^ 7 = 128 from by norm_num,
             show (2 : Nat) ^ 14 = 16384 from by norm_num,
             show (2 : Nat) ^ 28 = 268435456 from by norm_num] at *
  omega

/-- C4 counterexample: composing the decoder with the encoder fails outright — the
encoder writes the four payload bytes at offset 5 after the start marker, while the
decoder expects a status byte there and the payload at offset 6, so it sees only a
3-byte payload and errors for every value, already at v = 0. -/
theorem C4_counterexample :
    decode_ping (encode_ping 0) = some (.error (.messagePayloadTooShort 4 3)) ∧
    decode_ping (encode_ping 0) ≠ some (.ok 0) := by
  refine ⟨rfl, fun h => ?_⟩
  rw [show decode_ping (encode_ping 0)
      = some (.error (.messagePayloadTooShort 4 3)) from rfl] at h
  exact Except.noConfusion (Option.some.inj h)

/-- C4 amended: for every v, decode_ping of the encode_ping frame itself fails with
MessagePayloadTooShort; decoding the device's Ack echo of that frame (the status
byte inserted at offset 5, as the response layout has it) returns v mod 2^21 — the
value round-trips exactly when v ≤ 0x1FFFFF, not for all v ≤ 0x0FFFFFFF, because
the encoder emits only three 7-bit bytes. -/
theorem C4_amended (v : Nat) :
    decode_ping (encode_ping v) = some (.error (.messagePayloadTooShort 4 3)) ∧
    decode_ping (device_echo_frame v) = some (.ok (v % 2097152)) := by
  constructor
  · rfl
  · have h : decode_ping (device_echo_frame v)
        = some (.ok (((((v &&& 0xfffffff) >>> 14) &&& 0x7f) <<< 14) |||
            ((((v &&& 0xfffffff) >>> 7) &&& 0x7f) <<< 7) |||
            ((v &&& 0xfffffff) &&& 0x7f))) := rfl
    rw [h, ping_pack_unpack]

/-- Fully-appended shape of a created frame: start marker, manufacturer id, board
byte, command byte, data, zero padding, end marker. -/
theorem create_sysex_shape (b : BoardIndex) (cmd : Nat) (data : List Nat) :
    create_sysex b cmd data
      = 0xf0 :: (MANUFACTURER_ID ++ [b.toByte, cmd] ++ data
          ++ List.replicate (10 - (6 + data.length)) 0 ++ [0xf7]) := by
  simp [create_sysex, MANUFACTURER_ID, SYSEX_START, SYSEX_END]
  omega

theorem create_sysex_length (b : BoardIndex) (cmd : Nat) (data : List Nat) :
    (create_sysex b cmd data).length = max 10 (6 + data.length) + 1 := by
  rw [create_sysex_shape]
  simp [MANUFACTURER_ID]
  omega

/-- Every command's encoder funnels through create_sysex with that command's id. -/
theorem to_sysex_is_create (c : Command) :
    ∃ b data, c.to_sysex_message = create_sysex b c.command_id data := by
  cases c <;>
    simp only [Command.to_sysex_message, Command.command_id, encode_ping,
      encode_set_key_function, encode_set_key_color, encode_set_velocity_interval_table,
      encode_set_key_thresholds, encode_set_key_sensitivity, create_sysex_toggle,
      create_zero_arg_sysex, create_zero_arg_server_sysex, create_single_arg_server_sysex,
      create_extended_key_color_sysex, create_extended_macro_color_sysex,
      create_table_sysex] <;>
    exact ⟨_, _, rfl⟩

/-- C5 counterexample: a zero-argument command is padded so that the buffer
INCLUDING the start marker reaches 10 bytes before the end marker — the body
excluding the start marker is 9 bytes, not the 10 the claim asserts (the frame is
11 bytes in total, not 12). -/
theorem C5_counterexample :
    Command.getVelocityConfig.to_sysex_message
      = [0xf0, 0x00, 0x21, 0x50, 0x00, 0x1d, 0, 0, 0, 0, 0xf7] ∧
    Command.getVelocityConfig.to_sysex_message.length = 11 ∧
    ¬ 12 ≤ Command.getVelocityConfig.to_sysex_message.length := by
  refine ⟨rfl, rfl, by decide⟩

/-- C5 amended: every command's frame starts with the 0xF0 marker, the 3-byte
manufacturer id 00 21 50, the board byte and the command id byte, ends with 0xF7,
and is zero-padded so that the buffer INCLUDING the start marker reaches 10 bytes
(9-byte body) before the end marker; the total length is max 11 (7 + payload). -/
theorem C5_amended (c : Command) :
    ∃ b data,
      c.to_sysex_message
        = 0xf0 :: (MANUFACTURER_ID ++ [BoardIndex.toByte b, c.command_id] ++ data
            ++ List.replicate (10 - (6 + data.length)) 0 ++ [0xf7]) ∧
      c.to_sysex_message.length = max 11 (7 + data.length) := by
  obtain ⟨b, data, h⟩ := to_sysex_is_create c
  refine ⟨b, data, ?_, ?_⟩
  · rw [h, create_sysex_shape]
  · rw [h, create_sysex_length]; omega

/-- Stripping an encoded outgoing frame never panics: a frame is never the one-byte
panic input because its length is at least 11. -/
theorem strip_to_sysex_isSome (c : Command) :
    (strip_sysex_markers c.to_sysex_message).isSome := by
  rw [Option.isSome_iff_ne_none]
  intro hn
  rw [strip_none_iff] at hn
  obtain ⟨b, data, h⟩ := to_sysex_is_create c
  have hl := create_sysex_length b c.command_id data
  rw [← h, hn] at hl
  simp at hl

/-- A successful non-Unknown status decode pins down the stripped message: it exists
and is longer than the status offset. -/
theorem message_answer_code_some_spec (m : List Nat) (st : ResponseStatusCode)
    (hm : message_answer_code m = some st) (hst : st ≠ .unknown) :
    ∃ m', strip_sysex_markers m = some m' ∧ 5 < m'.length := by
  unfold message_answer_code at hm
  cases hs : strip_sysex_markers m with
  | none => rw [hs] at hm; simp at hm
  | some m' =>
      rw [hs] at hm
      simp only [Option.bind_eq_bind, Option.some_bind, MSG_STATUS] at hm
      split_ifs at hm with hlen
      · simp at hm; exact absurd hm.symm hst
      · exact ⟨m', rfl, by omega⟩

/-- Evaluating is_response_to_message never panics when both sides strip cleanly and
the stripped incoming message is not itself the panic input. -/
theorem is_response_isSome (out m : List Nat)
    (ho : (strip_sysex_markers out).isSome)
    (hm : (strip_sysex_markers m).isSome)
    (h7 : ∀ i, strip_sysex_markers m = some i → i ≠ [0xf7]) :
    (is_response_to_message out m).isSome := by
  obtain ⟨o, hoe⟩ := Option.isSome_iff_exists.mp ho
  obtain ⟨i, hie⟩ := Option.isSome_iff_exists.mp hm
  have hi2 : (strip_sysex_markers i).isSome :=
    Option.isSome_iff_ne_none.mpr fun hn => h7 i hie ((strip_none_iff i).mp hn)
  obtain ⟨i2, hi2e⟩ := Option.isSome_iff_exists.mp hi2
  simp only [is_response_to_message, is_lumatone_message, hoe, hie, hi2e,
    Option.bind_eq_bind, Option.some_bind]
  rcases Bool.eq_false_or_eq_true
      ((MANUFACTURER_ID.zip i2).all fun p => decide (p.1 = p.2)) with hz | hz <;>
    split_ifs <;> simp [hz]

/-- Entering ProcessingResponse with a decodable status: the state is unchanged and
the effect is determined by the status byte.  Busy and State dispatch DeviceBusy
without notifying anyone; Ack, Nack and Error notify the in-flight submission;
Unknown does nothing. -/
theorem DriverSM.enter_processingResponse (q : List CommandSubmission)
    (s : CommandSubmission) (m : EncodedSysex) (st : ResponseStatusCode)
    (hm : message_answer_code m = some st) (hst : st ≠ .unknown) :
    (DriverSM.State.processingResponse q s m).enter
      = some (.processingResponse q s m,
          match st with
          | .busy => some (.dispatchAction .deviceBusy)
          | .state => some (.dispatchAction .deviceBusy)
          | .error => some (.notifyMessageResponse s)
          | .nack => some (.notifyMessageResponse s)
          | .ack => some (.notifyMessageResponse s)
          | .unknown => none) := by
  obtain ⟨m', hm', hlen⟩ := message_answer_code_some_spec m st hm hst
  have hresp : (is_response_to_message s.command.to_sysex_message m).isSome := by
    refine is_response_isSome _ _ (strip_to_sysex_isSome s.command)
      (by rw [hm']; rfl) ?_
    intro i hi
    rw [hm'] at hi
    cases hi
    intro h17
    rw [h17] at hlen
    simp at hlen
  obtain ⟨w, hw⟩ := Option.isSome_iff_exists.mp hresp
  simp only [DriverSM.State.enter, hw, hm, Option.bind_eq_bind, Option.some_bind]
  cases st <;> rfl

/-- C2: when the device answers Busy (or State) to the in-flight submission s,
entering ProcessingResponse produces no notification but a DeviceBusy dispatch;
the DeviceBusy transition moves s to WaitingToRetry with the queue unchanged; the
ReadyToRetry action pushes s onto the FRONT of the queue; and entering that
ProcessingQueue emits SendMidiMessage for s itself before anything else queued, so
the resend carries the same encoded bytes s.command.to_sysex_message. -/
theorem C2_busy_retry (q : List CommandSubmission) (s : CommandSubmission)
    (m : EncodedSysex) (t : Unit)
    (hstatus : message_answer_code m = some .busy ∨ message_answer_code m = some .state) :
    (DriverSM.State.processingResponse q s m).enter
      = some (.processingResponse q s m, some (.dispatchAction .deviceBusy)) ∧
    (DriverSM.State.processingResponse q s m).next .deviceBusy = .waitingToRetry q s () ∧
    (DriverSM.State.waitingToRetry q s t).next .readyToRetry = .processingQueue (s :: q) ∧
    (DriverSM.State.processingQueue (s :: q)).enter
      = some (.processingQueue q, some (.sendMidiMessage s)) := by
  refine ⟨?_, rfl, rfl, rfl⟩
  cases hstatus with
  | inl h => exact DriverSM.enter_processingResponse q s m .busy h (by simp)
  | inr h => exact DriverSM.enter_processingResponse q s m .state h (by simp)

theorem C2_busy_retry_witness :
    (message_answer_code [0x00, 0x21, 0x50, 0x00, 0x33, 0x02, 0x7f, 0, 0, 0]
        = some .busy ∨
      message_answer_code [0x00, 0x21, 0x50, 0x00, 0x33, 0x02, 0x7f, 0, 0, 0]
        = some .state) ∧
    ((DriverSM.State.processingResponse [] ⟨.ping 1, 1⟩
        [0x00, 0x21, 0x50, 0x00, 0x33, 0x02, 0x7f, 0, 0, 0]).enter
      = some (.processingResponse [] ⟨.ping 1, 1⟩
          [0x00, 0x21, 0x50, 0x00, 0x33, 0x02, 0x7f, 0, 0, 0],
          some (.dispatchAction .deviceBusy)) ∧
    (DriverSM.State.processingResponse [] ⟨.ping 1, 1⟩
        [0x00, 0x21, 0x50, 0x00, 0x33, 0x02, 0x7f, 0, 0, 0]).next .deviceBusy
      = .waitingToRetry [] ⟨.ping 1, 1⟩ () ∧
    (DriverSM.State.waitingToRetry [] ⟨.ping 1, 1⟩ ()).next .readyToRetry
      = .processingQueue [⟨.ping 1, 1⟩] ∧
    (DriverSM.State.processingQueue [⟨.ping 1, 1⟩]).enter
      = some (.processingQueue [], some (.sendMidiMessage ⟨.ping 1, 1⟩))) :=
  ⟨Or.inl rfl, C2_busy_retry [] ⟨.ping 1, 1⟩ _ () (Or.inl rfl)⟩

/-- Transitions introduce no submission out of thin air: everything held after a
step was either already held or carried by the action. -/
theorem DriverSM.subIds_next (s : DriverSM.State) (a : DriverSM.Action) :
    ∀ x ∈ (s.next a).subIds, x ∈ s.subIds ∨ x ∈ a.subIds := by
  intro x hx
  cases a <;> cases s
  all_goals simp only [DriverSM.State.next] at hx
  all_goals try split at hx
  all_goals
    simp only [DriverSM.State.subIds, DriverSM.Action.subIds, List.map_append,
      List.map_cons, List.mem_append, List.mem_cons, List.mem_singleton,
      List.not_mem_nil] at hx ⊢
  all_goals tauto

/-- Entry steps only shrink the held submissions, and a notification effect always
names a submission held by the entered state. -/
theorem DriverSM.enter_spec (s s' : DriverSM.State) (eff : Option DriverSM.Effect)
    (h : s.enter = some (s', eff)) :
    (∀ x ∈ s'.subIds, x ∈ s.subIds) ∧
    (∀ sub, eff = some (.notifyMessageResponse sub) → sub.subId ∈ s.subIds) := by
  cases s with
  | idle => cases h; exact ⟨fun x hx => hx, fun sub hsub => by cases hsub⟩
  | processingQueue q =>
      cases q with
      | nil => cases h; exact ⟨fun x hx => hx, fun sub hsub => by cases hsub⟩
      | cons c rest =>
          cases h
          refine ⟨fun x hx => ?_, fun sub hsub => by cases hsub⟩
          simp [DriverSM.State.subIds] at hx ⊢
          tauto
  | awaitingResponse q c t =>
      cases h; exact ⟨fun x hx => hx, fun sub hsub => by cases hsub⟩
  | waitingToRetry q c t =>
      cases h; exact ⟨fun x hx => hx, fun sub hsub => by cases hsub⟩
  | failed e =>
      cases h; exact ⟨fun x hx => hx, fun sub hsub => by cases hsub⟩
  | processingResponse q c m =>
      simp only [DriverSM.State.enter, Option.bind_eq_bind] at h
      cases hr : is_response_to_message c.command.to_sysex_message m with
      | none => rw [hr] at h; simp at h
      | some w =>
        rw [hr] at h
        simp only [Option.some_bind] at h
        cases hmac : message_answer_code m with
        | none => rw [hmac] at h; simp at h
        | some st =>
          rw [hmac] at h
          simp only [Option.some_bind] at h
          cases st <;> cases h <;>
            refine ⟨fun x hx => hx, fun sub hsub => ?_⟩
          all_goals simp at hsub
          all_goals (cases hsub; simp [DriverSM.State.subIds])

/-- A submission that is held nowhere and never re-enters through an action is
never notified over any continuation of the run. -/
theorem DriverSM.notified_not_mem (x : Nat) :
    ∀ (acts : List DriverSM.Action) (s : DriverSM.State),
      x ∉ s.subIds → (∀ a ∈ acts, x ∉ a.subIds) →
      x ∉ DriverSM.notifiedIds (DriverSM.runActions s acts).2 := by
  intro acts
  induction acts with
  | nil => intro s _ _; simp [DriverSM.runActions, DriverSM.notifiedIds]
  | cons a rest ih =>
    intro s hs ha
    simp only [DriverSM.runActions]
    cases happ : DriverSM.applyAction s a with
    | none => simp [DriverSM.notifiedIds]
    | some r =>
      obtain ⟨s', eff⟩ := r
      have hspec := DriverSM.enter_spec (s.next a) s' eff happ
      have hxnext : x ∉ (s.next a).subIds := by
        intro hmem
        rcases DriverSM.subIds_next s a x hmem with h | h
        · exact hs h
        · exact ha a (List.mem_cons_self a rest) h
      intro hmem
      simp only [DriverSM.notifiedIds, List.filterMap_append, List.mem_append]
        at hmem
      rcases hmem with hmem | hmem
      · cases eff with
        | none => simp at hmem
        | some e =>
          cases e <;> simp [DriverSM.notifiedIds] at hmem
          rename_i sub
          exact hxnext (hmem ▸ hspec.2 sub rfl)
      · refine ih s' (fun hmem2 => hxnext (hspec.1 x hmem2))
          (fun a2 ha2 => ha a2 (List.mem_cons_of_mem a ha2)) hmem

/-- C3: the ResponseTimedOut action applied to AwaitingResponse drops the in-flight
submission s and returns to ProcessingQueue with the queue unchanged; applied in
any other state it leaves the state unchanged; and no continuation of the run ever
produces a NotifyMessageResponse effect for the dropped s (its responder channel
id does not occur in the resulting state, and notifications only name held
submissions). -/
theorem C3_response_timeout (q : List CommandSubmission) (s : CommandSubmission) (t : Unit) :
    (DriverSM.State.awaitingResponse q s t).next .responseTimedOut = .processingQueue q ∧
    (∀ σ : DriverSM.State, (∀ q' s' t', σ ≠ .awaitingResponse q' s' t') →
        σ.next .responseTimedOut = σ) ∧
    (∀ acts : List DriverSM.Action,
        s.subId ∉ q.map CommandSubmission.subId →
        (∀ a ∈ acts, s.subId ∉ a.subIds) →
        s.subId ∉ DriverSM.notifiedIds
          (DriverSM.runActions (.processingQueue q) acts).2) := by
  refine ⟨rfl, ?_, ?_⟩
  · intro σ h
    cases σ <;> first | rfl | exact absurd rfl (h _ _ _)
  · intro acts hq ha
    exact DriverSM.notified_not_mem s.subId acts (.processingQueue q) hq ha

theorem C3_response_timeout_witness :
    (DriverSM.State.awaitingResponse [] ⟨.ping 1, 1⟩ ()).next .responseTimedOut
      = .processingQueue [] ∧
    DriverSM.State.idle.next .responseTimedOut = .idle ∧
    (1 : Nat) ∉ DriverSM.notifiedIds
      (DriverSM.runActions (.processingQueue [])
        [.submitCommand ⟨.ping 2, 2⟩, .queueEmpty]).2 := by
  obtain ⟨h1, h2, h3⟩ := C3_response_timeout [] ⟨.ping 1, 1⟩ ()
  refine ⟨h1, h2 .idle (fun q' s' t' => by simp), ?_⟩
  refine h3 [.submitCommand ⟨.ping 2, 2⟩, .queueEmpty] (by simp) ?_
  intro a ha
  simp only [List.mem_cons, List.not_mem_nil, or_false] at ha
  rcases ha with rfl | rfl <;> simp [DriverSM.Action.subIds]

/-- Entry characterization of ProcessingResponse in the older machine: the state is
left alone and the effect / follow-up action pair is one of busy-dispatch,
notify-and-dispatch, or silent-dispatch (Unknown status). -/
theorem MidiDriver.enter_pr_spec (q : List CommandSubmission) (c : CommandSubmission)
    (m : EncodedSysex) (s2 : MidiDriver.State) (eff : Option MidiDriver.Effect)
    (act : Option MidiDriver.Action)
    (h : (MidiDriver.State.processingResponse q c m).enter = some (s2, eff, act)) :
    s2 = .processingResponse q c m ∧
    ((eff = none ∧ act = some .deviceBusy) ∨
     (eff = some (.notifyMessageResponse c) ∧ act = some .responseDispatched) ∨
     (eff = none ∧ act = some .responseDispatched)) := by
  simp only [MidiDriver.State.enter, Option.bind_eq_bind] at h
  cases hr : is_response_to_message c.command.to_sysex_message m with
  | none => rw [hr] at h; simp at h
  | some w =>
    rw [hr] at h
    simp only [Option.some_bind] at h
    cases hmac : message_answer_code m with
    | none => rw [hmac] at h; simp at h
    | some st =>
      rw [hmac] at h
      simp only [Option.some_bind] at h
      cases st <;> cases h <;> simp

/-- submittedIds distributes over cons. -/
theorem MidiDriver.submittedIds_cons (e : MidiDriver.Event) (rest : List MidiDriver.Event) :
    MidiDriver.submittedIds (e :: rest) = e.subIds ++ MidiDriver.submittedIds rest := by
  cases e <;> simp [MidiDriver.submittedIds, MidiDriver.Event.subIds]

/-- One loop iteration removes submissions only from the front of the pending list:
the pre-step pending ids extended by the event equal some prefix w followed by the
post-step pending ids, and everything notified in the step lies in w. -/
theorem MidiDriver.step_spec (s : MidiDriver.State) (e : MidiDriver.Event)
    (s' : MidiDriver.State) (outs : List MidiDriver.Output)
    (h : MidiDriver.step s e = some (s', outs)) :
    ∃ w, s.subIds ++ e.subIds = w ++ s'.subIds ∧ List.Sublist (MidiDriver.notifiedIds outs) w := by
  cases e with
  | submit sub =>
    cases s with
    | idle =>
      refine ⟨[], ?_, ?_⟩ <;> cases h <;>
        simp [MidiDriver.step, MidiDriver.Action.ofEvent, MidiDriver.State.next, MidiDriver.State.enter, MidiDriver.State.subIds, MidiDriver.Event.subIds, MidiDriver.notifiedIds,
          MidiDriver.effectOutputs]
    | processingQueue q =>
      cases q with
      | nil =>
        refine ⟨[], ?_, ?_⟩ <;> cases h <;>
          simp [MidiDriver.step, MidiDriver.Action.ofEvent, MidiDriver.State.next, MidiDriver.State.enter, MidiDriver.State.subIds, MidiDriver.Event.subIds, MidiDriver.notifiedIds,
            MidiDriver.effectOutputs]
      | cons f r =>
        refine ⟨[], ?_, ?_⟩ <;> cases h <;>
          simp [MidiDriver.step, MidiDriver.Action.ofEvent, MidiDriver.State.next, MidiDriver.State.enter, MidiDriver.State.subIds, MidiDriver.Event.subIds, MidiDriver.notifiedIds,
            MidiDriver.effectOutputs]
    | awaitingResponse q c =>
      refine ⟨[], ?_, ?_⟩ <;> cases h <;>
        simp [MidiDriver.step, MidiDriver.Action.ofEvent, MidiDriver.State.next, MidiDriver.State.enter, MidiDriver.State.subIds, MidiDriver.Event.subIds, MidiDriver.notifiedIds,
          MidiDriver.effectOutputs]
    | waitingToRetry q c =>
      refine ⟨[], ?_, ?_⟩ <;> cases h <;>
        simp [MidiDriver.step, MidiDriver.Action.ofEvent, MidiDriver.State.next, MidiDriver.State.enter, MidiDriver.State.subIds, MidiDriver.Event.subIds, MidiDriver.notifiedIds,
          MidiDriver.effectOutputs]
    | failed err =>
      refine ⟨[sub.subId], ?_, ?_⟩ <;> cases h <;>
        simp [MidiDriver.step, MidiDriver.Action.ofEvent, MidiDriver.State.next, MidiDriver.State.enter, MidiDriver.State.subIds, MidiDriver.Event.subIds, MidiDriver.notifiedIds]
    | processingResponse q c m =>
      have h2 : (match (MidiDriver.State.processingResponse (q ++ [sub]) c m).enter with
          | none => none
          | some (s2, eff, act) =>
              some ((match act with
                     | some a => MidiDriver.State.next s2 a
                     | none => s2),
                    MidiDriver.effectOutputs eff)) = some (s', outs) := h
      cases henter : (MidiDriver.State.processingResponse (q ++ [sub]) c m).enter with
      | none => rw [henter] at h2; cases h2
      | some r =>
        obtain ⟨s2, eff, act⟩ := r
        rw [henter] at h2
        obtain ⟨hs2, hcase⟩ := MidiDriver.enter_pr_spec (q ++ [sub]) c m s2 eff act henter
        subst hs2
        rcases hcase with ⟨he, ha⟩ | ⟨he, ha⟩ | ⟨he, ha⟩ <;> subst he <;> subst ha <;> cases h2
        · exact ⟨_, (List.append_nil _).symm, by
            simp [MidiDriver.notifiedIds, MidiDriver.effectOutputs]⟩
        · exact ⟨[c.subId], by
            simp [MidiDriver.State.next, MidiDriver.State.subIds, MidiDriver.Event.subIds], by
            simp [MidiDriver.notifiedIds, MidiDriver.effectOutputs]⟩
        · exact ⟨[c.subId], by
            simp [MidiDriver.State.next, MidiDriver.State.subIds, MidiDriver.Event.subIds], by
            simp [MidiDriver.notifiedIds, MidiDriver.effectOutputs]⟩
  | receive m0 =>
    cases s with
    | idle =>
      refine ⟨[], ?_, ?_⟩ <;> cases h <;>
        simp [MidiDriver.step, MidiDriver.Action.ofEvent, MidiDriver.State.next, MidiDriver.State.enter, MidiDriver.State.subIds, MidiDriver.Event.subIds, MidiDriver.notifiedIds,
          MidiDriver.effectOutputs]
    | processingQueue q =>
      cases q with
      | nil =>
        refine ⟨[], ?_, ?_⟩ <;> cases h <;>
          simp [MidiDriver.step, MidiDriver.Action.ofEvent, MidiDriver.State.next, MidiDriver.State.enter, MidiDriver.State.subIds, MidiDriver.Event.subIds, MidiDriver.notifiedIds,
            MidiDriver.effectOutputs]
      | cons f r =>
        refine ⟨[], ?_, ?_⟩ <;> cases h <;>
          simp [MidiDriver.step, MidiDriver.Action.ofEvent, MidiDriver.State.next, MidiDriver.State.enter, MidiDriver.State.subIds, MidiDriver.Event.subIds, MidiDriver.notifiedIds,
            MidiDriver.effectOutputs]
    | waitingToRetry q c =>
      refine ⟨[], ?_, ?_⟩ <;> cases h <;>
        simp [MidiDriver.step, MidiDriver.Action.ofEvent, MidiDriver.State.next, MidiDriver.State.enter, MidiDriver.State.subIds, MidiDriver.Event.subIds, MidiDriver.notifiedIds,
          MidiDriver.effectOutputs]
    | failed err =>
      refine ⟨[], ?_, ?_⟩ <;> cases h <;>
        simp [MidiDriver.step, MidiDriver.Action.ofEvent, MidiDriver.State.next, MidiDriver.State.enter, MidiDriver.State.subIds, MidiDriver.Event.subIds, MidiDriver.notifiedIds]
    | awaitingResponse q c =>
      have h2 : (match (MidiDriver.State.processingResponse q c m0).enter with
          | none => none
          | some (s2, eff, act) =>
              some ((match act with
                     | some a => MidiDriver.State.next s2 a
                     | none => s2),
                    MidiDriver.effectOutputs eff)) = some (s', outs) := h
      cases henter : (MidiDriver.State.processingResponse q c m0).enter with
      | none => rw [henter] at h2; cases h2
      | some r =>
        obtain ⟨s2, eff, act⟩ := r
        rw [henter] at h2
        obtain ⟨hs2, hcase⟩ := MidiDriver.enter_pr_spec q c m0 s2 eff act henter
        subst hs2
        rcases hcase with ⟨he, ha⟩ | ⟨he, ha⟩ | ⟨he, ha⟩ <;> subst he <;> subst ha <;> cases h2
        · exact ⟨_, (List.append_nil _).symm, by
            simp [MidiDriver.notifiedIds, MidiDriver.effectOutputs]⟩
        · exact ⟨[c.subId], by
            simp [MidiDriver.State.next, MidiDriver.State.subIds, MidiDriver.Event.subIds], by
            simp [MidiDriver.notifiedIds, MidiDriver.effectOutputs]⟩
        · exact ⟨[c.subId], by
            simp [MidiDriver.State.next, MidiDriver.State.subIds, MidiDriver.Event.subIds], by
            simp [MidiDriver.notifiedIds, MidiDriver.effectOutputs]⟩
    | processingResponse q c m =>
      have h2 : (match (MidiDriver.State.processingResponse q c m).enter with
          | none => none
          | some (s2, eff, act) =>
              some ((match act with
                     | some a => MidiDriver.State.next s2 a
                     | none => s2),
                    MidiDriver.effectOutputs eff)) = some (s', outs) := h
      cases henter : (MidiDriver.State.processingResponse q c m).enter with
      | none => rw [henter] at h2; cases h2
      | some r =>
        obtain ⟨s2, eff, act⟩ := r
        rw [henter] at h2
        obtain ⟨hs2, hcase⟩ := MidiDriver.enter_pr_spec q c m s2 eff act henter
        subst hs2
        rcases hcase with ⟨he, ha⟩ | ⟨he, ha⟩ | ⟨he, ha⟩ <;> subst he <;> subst ha <;> cases h2
        · exact ⟨_, (List.append_nil _).symm, by
            simp [MidiDriver.notifiedIds, MidiDriver.effectOutputs]⟩
        · exact ⟨[c.subId], by
            simp [MidiDriver.State.next, MidiDriver.State.subIds, MidiDriver.Event.subIds], by
            simp [MidiDriver.notifiedIds, MidiDriver.effectOutputs]⟩
        · exact ⟨[c.subId], by
            simp [MidiDriver.State.next, MidiDriver.State.subIds, MidiDriver.Event.subIds], by
            simp [MidiDriver.notifiedIds, MidiDriver.effectOutputs]⟩
  | receiveTimeout =>
    cases s with
    | idle =>
      refine ⟨[], ?_, ?_⟩ <;> cases h <;>
        simp [MidiDriver.step, MidiDriver.Action.ofEvent, MidiDriver.State.next, MidiDriver.State.enter, MidiDriver.State.subIds, MidiDriver.Event.subIds, MidiDriver.notifiedIds,
          MidiDriver.effectOutputs]
    | processingQueue q =>
      cases q with
      | nil =>
        refine ⟨[], ?_, ?_⟩ <;> cases h <;>
          simp [MidiDriver.step, MidiDriver.Action.ofEvent, MidiDriver.State.next, MidiDriver.State.enter, MidiDriver.State.subIds, MidiDriver.Event.subIds, MidiDriver.notifiedIds,
            MidiDriver.effectOutputs]
      | cons f r =>
        refine ⟨[], ?_, ?_⟩ <;> cases h <;>
          simp [MidiDriver.step, MidiDriver.Action.ofEvent, MidiDriver.State.next, MidiDriver.State.enter, MidiDriver.State.subIds, MidiDriver.Event.subIds, MidiDriver.notifiedIds,
            MidiDriver.effectOutputs]
    | awaitingResponse q c =>
      cases q with
      | nil =>
        refine ⟨[c.subId], ?_, ?_⟩ <;> cases h <;>
          simp [MidiDriver.step, MidiDriver.Action.ofEvent, MidiDriver.State.next, MidiDriver.State.enter, MidiDriver.State.subIds, MidiDriver.Event.subIds, MidiDriver.notifiedIds,
            MidiDriver.effectOutputs]
      | cons f r =>
        refine ⟨[c.subId], ?_, ?_⟩ <;> cases h <;>
          simp [MidiDriver.step, MidiDriver.Action.ofEvent, MidiDriver.State.next, MidiDriver.State.enter, MidiDriver.State.subIds, MidiDriver.Event.subIds, MidiDriver.notifiedIds,
            MidiDriver.effectOutputs]
    | waitingToRetry q c =>
      refine ⟨[], ?_, ?_⟩ <;> cases h <;>
        simp [MidiDriver.step, MidiDriver.Action.ofEvent, MidiDriver.State.next, MidiDriver.State.enter, MidiDriver.State.subIds, MidiDriver.Event.subIds, MidiDriver.notifiedIds,
          MidiDriver.effectOutputs]
    | failed err =>
      refine ⟨[], ?_, ?_⟩ <;> cases h <;>
        simp [MidiDriver.step, MidiDriver.Action.ofEvent, MidiDriver.State.next, MidiDriver.State.enter, MidiDriver.State.subIds, MidiDriver.Event.subIds, MidiDriver.notifiedIds]
    | processingResponse q c m =>
      have h2 : (match (MidiDriver.State.processingResponse q c m).enter with
          | none => none
          | some (s2, eff, act) =>
              some ((match act with
                     | some a => MidiDriver.State.next s2 a
                     | none => s2),
                    MidiDriver.effectOutputs eff)) = some (s', outs) := h
      cases henter : (MidiDriver.State.processingResponse q c m).enter with
      | none => rw [henter] at h2; cases h2
      | some r =>
        obtain ⟨s2, eff, act⟩ := r
        rw [henter] at h2
        obtain ⟨hs2, hcase⟩ := MidiDriver.enter_pr_spec q c m s2 eff act henter
        subst hs2
        rcases hcase with ⟨he, ha⟩ | ⟨he, ha⟩ | ⟨he, ha⟩ <;> subst he <;> subst ha <;> cases h2
        · exact ⟨_, (List.append_nil _).symm, by
            simp [MidiDriver.notifiedIds, MidiDriver.effectOutputs]⟩
        · exact ⟨[c.subId], by
            simp [MidiDriver.State.next, MidiDriver.State.subIds, MidiDriver.Event.subIds], by
            simp [MidiDriver.notifiedIds, MidiDriver.effectOutputs]⟩
        · exact ⟨[c.subId], by
            simp [MidiDriver.State.next, MidiDriver.State.subIds, MidiDriver.Event.subIds], by
            simp [MidiDriver.notifiedIds, MidiDriver.effectOutputs]⟩
  | retryTimeout =>
    cases s with
    | idle =>
      refine ⟨[], ?_, ?_⟩ <;> cases h <;>
        simp [MidiDriver.step, MidiDriver.Action.ofEvent, MidiDriver.State.next, MidiDriver.State.enter, MidiDriver.State.subIds, MidiDriver.Event.subIds, MidiDriver.notifiedIds,
          MidiDriver.effectOutputs]
    | processingQueue q =>
      cases q with
      | nil =>
        refine ⟨[], ?_, ?_⟩ <;> cases h <;>
          simp [MidiDriver.step, MidiDriver.Action.ofEvent, MidiDriver.State.next, MidiDriver.State.enter, MidiDriver.State.subIds, MidiDriver.Event.subIds, MidiDriver.notifiedIds,
            MidiDriver.effectOutputs]
      | cons f r =>
        refine ⟨[], ?_, ?_⟩ <;> cases h <;>
          simp [MidiDriver.step, MidiDriver.Action.ofEvent, MidiDriver.State.next, MidiDriver.State.enter, MidiDriver.State.subIds, MidiDriver.Event.subIds, MidiDriver.notifiedIds,
            MidiDriver.effectOutputs]
    | awaitingResponse q c =>
      refine ⟨[], ?_, ?_⟩ <;> cases h <;>
        simp [MidiDriver.step, MidiDriver.Action.ofEvent, MidiDriver.State.next, MidiDriver.State.enter, MidiDriver.State.subIds, MidiDriver.Event.subIds, MidiDriver.notifiedIds,
          MidiDriver.effectOutputs]
    | waitingToRetry q c =>
      refine ⟨[], ?_, ?_⟩ <;> cases h <;>
        simp [MidiDriver.step, MidiDriver.Action.ofEvent, MidiDriver.State.next, MidiDriver.State.enter, MidiDriver.State.subIds, MidiDriver.Event.subIds, MidiDriver.notifiedIds,
          MidiDriver.effectOutputs]
    | failed err =>
      refine ⟨[], ?_, ?_⟩ <;> cases h <;>
        simp [MidiDriver.step, MidiDriver.Action.ofEvent, MidiDriver.State.next, MidiDriver.State.enter, MidiDriver.State.subIds, MidiDriver.Event.subIds, MidiDriver.notifiedIds]
    | processingResponse q c m =>
      have h2 : (match (MidiDriver.State.processingResponse q c m).enter with
          | none => none
          | some (s2, eff, act) =>
              some ((match act with
                     | some a => MidiDriver.State.next s2 a
                     | none => s2),
                    MidiDriver.effectOutputs eff)) = some (s', outs) := h
      cases henter : (MidiDriver.State.processingResponse q c m).enter with
      | none => rw [henter] at h2; cases h2
      | some r =>
        obtain ⟨s2, eff, act⟩ := r
        rw [henter] at h2
        obtain ⟨hs2, hcase⟩ := MidiDriver.enter_pr_spec q c m s2 eff act henter
        subst hs2
        rcases hcase with ⟨he, ha⟩ | ⟨he, ha⟩ | ⟨he, ha⟩ <;> subst he <;> subst ha <;> cases h2
        · exact ⟨_, (List.append_nil _).symm, by
            simp [MidiDriver.notifiedIds, MidiDriver.effectOutputs]⟩
        · exact ⟨[c.subId], by
            simp [MidiDriver.State.next, MidiDriver.State.subIds, MidiDriver.Event.subIds], by
            simp [MidiDriver.notifiedIds, MidiDriver.effectOutputs]⟩
        · exact ⟨[c.subId], by
            simp [MidiDriver.State.next, MidiDriver.State.subIds, MidiDriver.Event.subIds], by
            simp [MidiDriver.notifiedIds, MidiDriver.effectOutputs]⟩

/-- Invariant of the run loop: everything ever notified is a FIFO-ordered selection
from the pending submissions plus the future submit events. -/
theorem MidiDriver.run_sublist (events : List MidiDriver.Event) :
    ∀ s : MidiDriver.State,
      List.Sublist (MidiDriver.notifiedIds (MidiDriver.run s events).2)
        (s.subIds ++ MidiDriver.submittedIds events) := by
  induction events with
  | nil => intro s; simp [MidiDriver.run, MidiDriver.notifiedIds, MidiDriver.submittedIds]
  | cons e rest ih =>
    intro s
    simp only [MidiDriver.run]
    cases hstep : MidiDriver.step s e with
    | none => simp [MidiDriver.notifiedIds]
    | some r =>
      obtain ⟨s', outs⟩ := r
      obtain ⟨w, hw, hsubl⟩ := MidiDriver.step_spec s e s' outs hstep
      have heq : MidiDriver.notifiedIds (outs ++ (MidiDriver.run s' rest).2)
          = MidiDriver.notifiedIds outs
            ++ MidiDriver.notifiedIds (MidiDriver.run s' rest).2 := by
        simp [MidiDriver.notifiedIds]
      simp only [heq]
      have hstep2 : List.Sublist
            (MidiDriver.notifiedIds outs
              ++ MidiDriver.notifiedIds (MidiDriver.run s' rest).2)
            (w ++ (s'.subIds ++ MidiDriver.submittedIds rest)) :=
        List.Sublist.append hsubl (ih s')
      have hre : w ++ (s'.subIds ++ MidiDriver.submittedIds rest)
          = s.subIds ++ MidiDriver.submittedIds (e :: rest) := by
        rw [MidiDriver.submittedIds_cons, ← List.append_assoc, ← hw, List.append_assoc]
      exact hre ▸ hstep2

/-- C1 counterexample: submissions are NOT all notified exactly once in FIFO order.
Submission 1 times out (its responder is never resolved), then submission 2 is
submitted and acknowledged: the notified sequence is [2], not [1, 2] as the claim
requires regardless of timeouts. -/
theorem C1_counterexample :
    MidiDriver.notifiedIds
      (MidiDriver.run .idle
        [.submit ⟨.ping 1, 1⟩, .receiveTimeout, .submit ⟨.ping 2, 2⟩,
         .receive [0x00, 0x21, 0x50, 0x00, 0x33, 0x01, 0x7f, 0, 0, 0]]).2 = [2] ∧
    ([2] : List Nat) ≠ [1, 2] := by
  exact ⟨rfl, by decide⟩

/-- C1 amended: over every event sequence fed to the driver loop from Idle, the
sequence of notified submission ids is a sublist (order-preserving selection) of
the submitted ids in FIFO submission order — so responders resolve in submission
order and, when the submitted ids are distinct, at most once each; but a timed-out
(or Unknown-status) submission is silently dropped and never resolves. -/
theorem C1_amended (events : List MidiDriver.Event) :
    List.Sublist (MidiDriver.notifiedIds (MidiDriver.run .idle events).2)
      (MidiDriver.submittedIds events) := by
  have h := MidiDriver.run_sublist events .idle
  simpa [MidiDriver.State.subIds] using h

set_option maxRecDepth 8000 in
/-- C6 counterexample: the claim's command sequence enumerates all 280 key
locations with absent keys as explicit disabled keys, which for the empty preset
would mean 5 + 2·280 = 565 commands; to_midi_commands emits only the five global
option commands for the empty preset — unset locations contribute nothing. -/
theorem C6_counterexample :
    (Keymap.LumatoneKeyMap.to_midi_commands Keymap.LumatoneKeyMap.new).length = 5 ∧
    (Keymap.to_midi_commands_per_claim Keymap.LumatoneKeyMap.new).length = 565 ∧
    Keymap.LumatoneKeyMap.to_midi_commands Keymap.LumatoneKeyMap.new ≠
      Keymap.to_midi_commands_per_claim Keymap.LumatoneKeyMap.new := by
  refine ⟨rfl, rfl, fun h => ?_⟩
  have hl := congrArg List.length h
  rw [show (Keymap.LumatoneKeyMap.to_midi_commands Keymap.LumatoneKeyMap.new).length = 5
        from rfl,
      show (Keymap.to_midi_commands_per_claim Keymap.LumatoneKeyMap.new).length = 565
        from rfl] at hl
  exact absurd hl (by decide)

/-- C6 amended: to_midi_commands emits the five global option commands, then the
present curve configs in the order on/off velocity, aftertouch, fader, lumatouch,
then the velocity intervals if present, then SetKeyFunction immediately followed by
SetKeyColor for each explicitly set key in map-iteration order; key locations not
in the per-key map contribute no commands at all. -/
theorem C6_amended (km : Keymap.LumatoneKeyMap) :
    Keymap.LumatoneKeyMap.to_midi_commands km = Keymap.to_midi_commands_amended_spec km := by
  unfold Keymap.LumatoneKeyMap.to_midi_commands Keymap.to_midi_commands_amended_spec
  cases h1 : km.general.config_tables.on_off_velocity <;>
    cases h2 : km.general.config_tables.aftertouch_velocity <;>
      cases h3 : km.general.config_tables.fader_velocity <;>
        cases h4 : km.general.config_tables.lumatouch_velocity <;>
          cases h5 : km.general.config_tables.velocity_intervals <;>
            simp [h1, h2, h3, h4, h5]

-- ---------------------------------------------------------------------------
-- Properties / Ini lemmas for the preset round trip
-- ---------------------------------------------------------------------------

/-- Setting a property then reading the same key yields the set value. -/
theorem Keymap.props_get_set_self (ps : Keymap.Props) (k : Keymap.PropKey) (v : String) :
    Keymap.props_get (Keymap.props_set ps k v) k = some v := by
  induction ps with
  | nil => simp [Keymap.props_set, Keymap.props_get]
  | cons p rest ih =>
    obtain ⟨k', v'⟩ := p
    by_cases h : k' = k
    · subst h
      simp [Keymap.props_set, Keymap.props_get]
    · simp only [Keymap.props_set, if_neg h]
      simpa [Keymap.props_get, List.find?, h] using ih

/-- Setting a property leaves every other key's value unchanged. -/
theorem Keymap.props_get_set_other (ps : Keymap.Props) (k k' : Keymap.PropKey) (v : String)
    (h : k' ≠ k) :
    Keymap.props_get (Keymap.props_set ps k v) k' = Keymap.props_get ps k' := by
  induction ps with
  | nil => simp [Keymap.props_set, Keymap.props_get, List.find?, Ne.symm h]
  | cons p rest ih =>
    obtain ⟨k0, v0⟩ := p
    by_cases h0 : k0 = k
    · subst h0
      simp [Keymap.props_set, Keymap.props_get, List.find?, Ne.symm h]
    · simp only [Keymap.props_set, if_neg h0]
      by_cases h1 : k0 = k'
      · subst h1
        simp [Keymap.props_get, List.find?]
      · simpa [Keymap.props_get, List.find?, h1] using ih

/-- Setting a key in a section then reading that section yields the updated
property list (an absent section reads as empty and is created). -/
theorem Keymap.section_set_self (ini : Keymap.Ini) (name : Option String)
    (k : Keymap.PropKey) (v : String) :
    (ini.set name k v).section name
      = some (Keymap.props_set ((ini.section name).getD []) k v) := by
  obtain ⟨secs⟩ := ini
  induction secs with
  | nil => simp [Keymap.Ini.set, Keymap.sections_set, Keymap.Ini.section, List.find?]
  | cons s rest ih =>
    obtain ⟨n, ps⟩ := s
    by_cases h : n = name
    · subst h
      simp [Keymap.Ini.set, Keymap.sections_set, Keymap.Ini.section, List.find?]
    · simp only [Keymap.Ini.set, Keymap.sections_set, if_neg h]
      simpa [Keymap.Ini.set, Keymap.Ini.section, List.find?, h] using ih

/-- Setting a key in one section leaves every other section unchanged. -/
theorem Keymap.section_set_other (ini : Keymap.Ini) (name name' : Option String)
    (k : Keymap.PropKey) (v : String) (h : name' ≠ name) :
    (ini.set name k v).section name' = ini.section name' := by
  obtain ⟨secs⟩ := ini
  induction secs with
  | nil => simp [Keymap.Ini.set, Keymap.sections_set, Keymap.Ini.section, List.find?, Ne.symm h]
  | cons s rest ih =>
    obtain ⟨n, ps⟩ := s
    by_cases h0 : n = name
    · subst h0
      simp [Keymap.Ini.set, Keymap.sections_set, Keymap.Ini.section, List.find?, Ne.symm h]
    · simp only [Keymap.Ini.set, Keymap.sections_set, if_neg h0]
      by_cases h1 : n = name'
      · subst h1
        simp [Keymap.Ini.section, List.find?]
      · simpa [Keymap.Ini.set, Keymap.Ini.section, List.find?, h1] using ih

/-- explicit_key_sets only touches its own section. -/
theorem Keymap.explicit_key_sets_section_other (conf : Keymap.Ini) (name : String)
    (loc : LumatoneKeyLocation) (d : Keymap.KeyDefinition) (nm : Option String)
    (h : nm ≠ some name) :
    (Keymap.explicit_key_sets conf name loc d).section nm = conf.section nm := by
  simp only [Keymap.explicit_key_sets]
  split <;> simp only [Keymap.section_set_other _ _ _ _ _ h]

/-- default_key_sets only touches its own section. -/
theorem Keymap.default_key_sets_section_other (conf : Keymap.Ini) (name : String)
    (k : Nat) (nm : Option String) (h : nm ≠ some name) :
    (Keymap.default_key_sets conf name k).section nm = conf.section nm := by
  simp only [Keymap.default_key_sets]
  simp only [Keymap.section_set_other _ _ _ _ _ h]

/-- Reading back the section explicit_key_sets wrote: the same writes at the Props
level. -/
theorem Keymap.explicit_key_sets_section_self (conf : Keymap.Ini) (name : String)
    (loc : LumatoneKeyLocation) (d : Keymap.KeyDefinition) :
    (Keymap.explicit_key_sets conf name loc d).section (some name)
      = some (Keymap.explicit_key_props ((conf.section (some name)).getD []) loc d) := by
  simp only [Keymap.explicit_key_sets, Keymap.explicit_key_props]
  split <;> rename_i hc <;>
    simp [Keymap.section_set_self, hc]

/-- Reading back the section default_key_sets wrote. -/
theorem Keymap.default_key_sets_section_self (conf : Keymap.Ini) (name : String) (k : Nat) :
    (Keymap.default_key_sets conf name k).section (some name)
      = some (Keymap.default_key_props ((conf.section (some name)).getD []) k) := by
  simp only [Keymap.default_key_sets, Keymap.default_key_props]
  simp [Keymap.section_set_self]

/-- A fold whose steps never touch section nm leaves it unchanged. -/
theorem Keymap.foldl_section_congr {α : Type} (nm : Option String)
    (step : Keymap.Ini → α → Keymap.Ini)
    (hstep : ∀ conf a, (step conf a).section nm = conf.section nm) :
    ∀ (L : List α) (conf : Keymap.Ini), (L.foldl step conf).section nm = conf.section nm := by
  intro L
  induction L with
  | nil => intro conf; rfl
  | cons a L ih => intro conf; rw [List.foldl_cons, ih]; exact hstep conf a

/-- A fold whose every step either rewrites section nm exactly as a Props-level step
or leaves both levels alone: the final section is the Props-level fold, unless no
step ever wrote, in which case the Props-level fold is also the identity. -/
theorem Keymap.foldl_section_spec {α : Type} (nm : Option String)
    (step_ini : Keymap.Ini → α → Keymap.Ini) (step_props : Keymap.Props → α → Keymap.Props)
    (hstep : ∀ conf a,
      (step_ini conf a).section nm = some (step_props ((conf.section nm).getD []) a) ∨
      ((step_ini conf a).section nm = conf.section nm ∧
        step_props ((conf.section nm).getD []) a = (conf.section nm).getD [])) :
    ∀ (L : List α) (conf : Keymap.Ini),
      (L.foldl step_ini conf).section nm
          = some (L.foldl step_props ((conf.section nm).getD [])) ∨
      ((L.foldl step_ini conf).section nm = conf.section nm ∧
        L.foldl step_props ((conf.section nm).getD []) = (conf.section nm).getD []) := by
  intro L
  induction L with
  | nil => intro conf; exact Or.inr ⟨rfl, rfl⟩
  | cons a L ih =>
    intro conf
    rcases hstep conf a with hw | ⟨hs, hp⟩
    · rcases ih (step_ini conf a) with h2 | ⟨h2s, h2p⟩
      · left
        rw [List.foldl_cons, h2, hw, Option.getD_some, List.foldl_cons]
      · left
        rw [List.foldl_cons, h2s, hw, List.foldl_cons]
        rw [hw, Option.getD_some] at h2p
        rw [h2p]
    · rcases ih (step_ini conf a) with h2 | ⟨h2s, h2p⟩
      · left
        rw [List.foldl_cons, h2, hs, List.foldl_cons, hp]
      · right
        constructor
        · rw [List.foldl_cons, h2s, hs]
        · rw [List.foldl_cons, hp]
          rw [hs] at h2p
          exact h2p

/-- props_set never produces an empty list. -/
theorem Keymap.props_set_ne_nil (ps : Keymap.Props) (k : Keymap.PropKey) (v : String) :
    Keymap.props_set ps k v ≠ [] := by
  cases ps with
  | nil => simp [Keymap.props_set]
  | cons p rest =>
    obtain ⟨k0, v0⟩ := p
    simp only [Keymap.props_set]
    split <;> simp

theorem Keymap.explicit_key_props_ne_nil (ps : Keymap.Props) (loc : LumatoneKeyLocation)
    (d : Keymap.KeyDefinition) : Keymap.explicit_key_props ps loc d ≠ [] := by
  simp only [Keymap.explicit_key_props]
  split <;> apply Keymap.props_set_ne_nil

theorem Keymap.default_key_props_ne_nil (ps : Keymap.Props) (k : Nat) :
    Keymap.default_key_props ps k ≠ [] :=
  Keymap.props_set_ne_nil _ _ _

theorem Keymap.fold_explicit_ne_nil (L : List (LumatoneKeyLocation × Keymap.KeyDefinition)) :
    ∀ ps : Keymap.Props, (ps ≠ [] ∨ L ≠ []) →
      L.foldl (fun ps e => Keymap.explicit_key_props ps e.1 e.2) ps ≠ [] := by
  induction L with
  | nil =>
    intro ps h
    rcases h with h | h
    · simpa using h
    · simp at h
  | cons e L ih =>
    intro ps _
    rw [List.foldl_cons]
    exact ih _ (Or.inl (Keymap.explicit_key_props_ne_nil _ _ _))

theorem Keymap.fold_default_ne_nil (km : Keymap.LumatoneKeyMap) (bi : BoardIndex)
    (L : List (Fin 56)) :
    ∀ ps : Keymap.Props,
      (ps ≠ [] ∨ ∃ k ∈ L, (km.keys.any fun e => e.1 = ⟨bi, k⟩) = false) →
      L.foldl (fun ps k => if km.keys.any fun e => e.1 = ⟨bi, k⟩ then ps
        else Keymap.default_key_props ps k.val) ps ≠ [] := by
  induction L with
  | nil =>
    intro ps h
    rcases h with h | ⟨k, hk, _⟩
    · simpa using h
    · simp at hk
  | cons k L ih =>
    intro ps h
    rw [List.foldl_cons]
    by_cases hg : (km.keys.any fun e => e.1 = ⟨bi, k⟩) = true
    · rw [if_pos hg]
      apply ih
      rcases h with h | ⟨k', hk', hg'⟩
      · exact Or.inl h
      · rcases List.mem_cons.mp hk' with rfl | hk'
        · rw [hg] at hg'; cases hg'
        · exact Or.inr ⟨k', hk', hg'⟩
    · rw [if_neg hg]
      exact ih _ (Or.inl (Keymap.default_key_props_ne_nil _ _))

/-- A board section written by to_ini is never empty: every board has 56 key
indices, each written either explicitly or as a disabled default. -/
theorem Keymap.board_props_ne_nil (km : Keymap.LumatoneKeyMap) (bi : BoardIndex) :
    Keymap.board_props km bi ≠ [] := by
  simp only [Keymap.board_props]
  by_cases hf : (km.keys.filter fun e => e.1.board_index = bi) = []
  · rw [hf]
    apply Keymap.fold_default_ne_nil
    right
    refine ⟨⟨0, by decide⟩, List.mem_finRange _, ?_⟩
    by_contra hany
    simp only [Bool.not_eq_false, List.any_eq_true, decide_eq_true_eq] at hany
    obtain ⟨e, he, heq⟩ := hany
    have hmem : e ∈ km.keys.filter fun e => e.1.board_index = bi := by
      rw [List.mem_filter]
      exact ⟨he, by rw [heq]; simp [LumatoneKeyLocation.board_index]⟩
    rw [hf] at hmem
    simp at hmem
  · apply Keymap.fold_default_ne_nil
    exact Or.inl (Keymap.fold_explicit_ne_nil _ _ (Or.inr hf))

/-- board_sets only touches its own board section. -/
theorem Keymap.board_sets_section_other (km : Keymap.LumatoneKeyMap) (conf : Keymap.Ini)
    (b : Nat) (bi : BoardIndex) (nm : Option String)
    (h : nm ≠ some (Keymap.board_name b)) :
    (Keymap.board_sets km conf b bi).section nm = conf.section nm := by
  have h2 : ∀ (c : Keymap.Ini) (k : Fin 56),
      ((if km.keys.any fun e => e.1 = ⟨bi, k⟩ then c
        else Keymap.default_key_sets c (Keymap.board_name b) k.val) : Keymap.Ini).section nm
        = c.section nm := by
    intro c k
    split
    · rfl
    · exact Keymap.default_key_sets_section_other _ _ _ _ h
  have h1 : ∀ (c : Keymap.Ini) (e : LumatoneKeyLocation × Keymap.KeyDefinition),
      (Keymap.explicit_key_sets c (Keymap.board_name b) e.1 e.2).section nm
        = c.section nm := fun c e =>
    Keymap.explicit_key_sets_section_other _ _ _ _ _ h
  simp only [Keymap.board_sets]
  rw [Keymap.foldl_section_congr nm _ h2, Keymap.foldl_section_congr nm _ h1]

/-- Entering board_sets on a fresh board section leaves exactly board_props there. -/
theorem Keymap.board_sets_section (km : Keymap.LumatoneKeyMap) (conf : Keymap.Ini)
    (b : Nat) (bi : BoardIndex)
    (h : conf.section (some (Keymap.board_name b)) = none) :
    (Keymap.board_sets km conf b bi).section (some (Keymap.board_name b))
      = some (Keymap.board_props km bi) := by
  have H1 := Keymap.foldl_section_spec (some (Keymap.board_name b))
      (fun c (e : LumatoneKeyLocation × Keymap.KeyDefinition) =>
        Keymap.explicit_key_sets c (Keymap.board_name b) e.1 e.2)
      (fun ps e => Keymap.explicit_key_props ps e.1 e.2)
      (fun c e => Or.inl (Keymap.explicit_key_sets_section_self c (Keymap.board_name b) e.1 e.2))
      (km.keys.filter fun e => e.1.board_index = bi) conf
  have H2 := Keymap.foldl_section_spec (some (Keymap.board_name b))
      (fun c (k : Fin 56) => if km.keys.any fun e => e.1 = ⟨bi, k⟩ then c
        else Keymap.default_key_sets c (Keymap.board_name b) k.val)
      (fun ps (k : Fin 56) => if km.keys.any fun e => e.1 = ⟨bi, k⟩ then ps
        else Keymap.default_key_props ps k.val)
      (by
        intro c k
        dsimp only
        by_cases hg : (km.keys.any fun e => e.1 = ⟨bi, k⟩) = true
        · exact Or.inr ⟨by rw [if_pos hg], by rw [if_pos hg]⟩
        · left
          rw [if_neg hg, if_neg hg]
          exact Keymap.default_key_sets_section_self _ _ _)
      (List.finRange 56)
      ((km.keys.filter fun e => e.1.board_index = bi).foldl
        (fun c e => Keymap.explicit_key_sets c (Keymap.board_name b) e.1 e.2) conf)
  simp only [Keymap.board_sets, Keymap.board_props]
  rw [h, Option.getD_none] at H1
  rcases H1 with h1 | ⟨h1s, h1p⟩
  · rw [h1, Option.getD_some] at H2
    rcases H2 with h2 | ⟨h2s, h2p⟩
    · rw [h2]
    · rw [h2s, h2p]
  · rw [h1s, Option.getD_none] at H2
    rw [h1p]
    rcases H2 with h2 | ⟨h2s, h2p⟩
    · rw [h2]
    · exfalso
      apply Keymap.board_props_ne_nil km bi
      simp only [Keymap.board_props]
      rw [h1p]
      exact h2p

/-- The general-option writes of to_ini never create a named section. -/
theorem Keymap.general_sets_section (km : Keymap.LumatoneKeyMap) (s : String) :
    (Keymap.general_sets km).section (some s) = none := by
  have hne : (some s : Option String) ≠ none := by simp
  simp only [Keymap.general_sets]
  cases km.general.config_tables.velocity_intervals <;>
    cases km.general.config_tables.on_off_velocity <;>
      cases km.general.config_tables.fader_velocity <;>
        cases km.general.config_tables.aftertouch_velocity <;>
          cases km.general.config_tables.lumatouch_velocity <;>
            simp [Keymap.section_set_other _ _ _ _ _ hne, Keymap.Ini.section, Keymap.Ini.empty,
              List.find?]

/-- Each board section of the rendered INI holds exactly its board_props. -/
theorem Keymap.to_ini_section_board (km : Keymap.LumatoneKeyMap) (b : Nat) (bi : BoardIndex)
    (hmem : (b, bi) ∈ Keymap.board_loop) :
    (Keymap.LumatoneKeyMap.to_ini km).section (some (Keymap.board_name b))
      = some (Keymap.board_props km bi) := by
  simp only [Keymap.board_loop, List.mem_cons, List.not_mem_nil, or_false,
    Prod.mk.injEq] at hmem
  simp only [Keymap.LumatoneKeyMap.to_ini, Keymap.board_loop, List.foldl_cons, List.foldl_nil]
  rcases hmem with ⟨rfl, rfl⟩ | ⟨rfl, rfl⟩ | ⟨rfl, rfl⟩ | ⟨rfl, rfl⟩ | ⟨rfl, rfl⟩ <;>
    (repeat rw [Keymap.board_sets_section_other _ _ _ _ _ (by decide)]) <;>
    refine Keymap.board_sets_section km _ _ _ ?_ <;>
    (repeat rw [Keymap.board_sets_section_other _ _ _ _ _ (by decide)]) <;>
    exact Keymap.general_sets_section km _

/-- A property key of the four per-key families, for a different key index, is a
different property key. -/
theorem Keymap.propkey_family_ne (k ki : Nat) (hk : ki ≠ k) (p : Keymap.PropKey)
    (hp : p = .keyN k ∨ p = .chanN k ∨ p = .colN k ∨ p = .ktypN k) :
    p ≠ .keyN ki ∧ p ≠ .chanN ki ∧ p ≠ .colN ki ∧ p ≠ .ktypN ki := by
  rcases hp with rfl | rfl | rfl | rfl <;> refine ⟨?_, ?_, ?_, ?_⟩ <;> simp [Ne.symm hk]

/-- explicit_key_props leaves key-property families of other key indices alone. -/
theorem Keymap.props_get_explicit_other (ps : Keymap.Props) (loc : LumatoneKeyLocation)
    (d : Keymap.KeyDefinition) (k : Nat) (hk : loc.key_index.val ≠ k) (p : Keymap.PropKey)
    (hp : p = .keyN k ∨ p = .chanN k ∨ p = .colN k ∨ p = .ktypN k) :
    Keymap.props_get (Keymap.explicit_key_props ps loc d) p = Keymap.props_get ps p := by
  obtain ⟨h1, h2, h3, h4⟩ := Keymap.propkey_family_ne k loc.key_index.val hk p hp
  simp only [Keymap.explicit_key_props]
  split <;>
    simp only [Keymap.props_get_set_other _ _ _ _ h4, Keymap.props_get_set_other _ _ _ _ h3,
      Keymap.props_get_set_other _ _ _ _ h2, Keymap.props_get_set_other _ _ _ _ h1]

/-- default_key_props leaves key-property families of other key indices alone. -/
theorem Keymap.props_get_default_other (ps : Keymap.Props) (j k : Nat) (hk : j ≠ k)
    (p : Keymap.PropKey)
    (hp : p = .keyN k ∨ p = .chanN k ∨ p = .colN k ∨ p = .ktypN k) :
    Keymap.props_get (Keymap.default_key_props ps j) p = Keymap.props_get ps p := by
  obtain ⟨h1, h2, h3, h4⟩ := Keymap.propkey_family_ne k j hk p hp
  simp only [Keymap.default_key_props]
  simp only [Keymap.props_get_set_other _ _ _ _ h4, Keymap.props_get_set_other _ _ _ _ h3,
    Keymap.props_get_set_other _ _ _ _ h2, Keymap.props_get_set_other _ _ _ _ h1]

/-- explicit_key_props leaves non-key properties alone. -/
theorem Keymap.props_get_explicit_not_key (ps : Keymap.Props) (loc : LumatoneKeyLocation)
    (d : Keymap.KeyDefinition) (p : Keymap.PropKey)
    (hp : Keymap.PropKey.is_key_prop p = false) :
    Keymap.props_get (Keymap.explicit_key_props ps loc d) p = Keymap.props_get ps p := by
  have h1 : ∀ n, p ≠ Keymap.PropKey.keyN n := by
    intro n hcon; subst hcon; simp [Keymap.PropKey.is_key_prop] at hp
  have h2 : ∀ n, p ≠ Keymap.PropKey.chanN n := by
    intro n hcon; subst hcon; simp [Keymap.PropKey.is_key_prop] at hp
  have h3 : ∀ n, p ≠ Keymap.PropKey.colN n := by
    intro n hcon; subst hcon; simp [Keymap.PropKey.is_key_prop] at hp
  have h4 : ∀ n, p ≠ Keymap.PropKey.ktypN n := by
    intro n hcon; subst hcon; simp [Keymap.PropKey.is_key_prop] at hp
  simp only [Keymap.explicit_key_props]
  split <;>
    simp only [Keymap.props_get_set_other _ _ _ _ (h4 _), Keymap.props_get_set_other _ _ _ _ (h3 _),
      Keymap.props_get_set_other _ _ _ _ (h2 _), Keymap.props_get_set_other _ _ _ _ (h1 _)]

/-- default_key_props leaves non-key properties alone. -/
theorem Keymap.props_get_default_not_key (ps : Keymap.Props) (k : Nat) (p : Keymap.PropKey)
    (hp : Keymap.PropKey.is_key_prop p = false) :
    Keymap.props_get (Keymap.default_key_props ps k) p = Keymap.props_get ps p := by
  have h1 : ∀ n, p ≠ Keymap.PropKey.keyN n := by
    intro n hcon; subst hcon; simp [Keymap.PropKey.is_key_prop] at hp
  have h2 : ∀ n, p ≠ Keymap.PropKey.chanN n := by
    intro n hcon; subst hcon; simp [Keymap.PropKey.is_key_prop] at hp
  have h3 : ∀ n, p ≠ Keymap.PropKey.colN n := by
    intro n hcon; subst hcon; simp [Keymap.PropKey.is_key_prop] at hp
  have h4 : ∀ n, p ≠ Keymap.PropKey.ktypN n := by
    intro n hcon; subst hcon; simp [Keymap.PropKey.is_key_prop] at hp
  simp only [Keymap.default_key_props]
  simp only [Keymap.props_get_set_other _ _ _ _ (h4 _), Keymap.props_get_set_other _ _ _ _ (h3 _),
    Keymap.props_get_set_other _ _ _ _ (h2 _), Keymap.props_get_set_other _ _ _ _ (h1 _)]

/-- Board sections contain only key properties: every other key reads as absent. -/
theorem Keymap.board_props_get_not_key (km : Keymap.LumatoneKeyMap) (bi : BoardIndex)
    (p : Keymap.PropKey) (hp : Keymap.PropKey.is_key_prop p = false) :
    Keymap.props_get (Keymap.board_props km bi) p = none := by
  simp only [Keymap.board_props]
  have hf2 : ∀ (L : List (Fin 56)) (ps : Keymap.Props),
      Keymap.props_get (L.foldl (fun ps k => if km.keys.any fun e => e.1 = ⟨bi, k⟩ then ps
        else Keymap.default_key_props ps k.val) ps) p = Keymap.props_get ps p := by
    intro L
    induction L with
    | nil => intro ps; rfl
    | cons k L ih =>
      intro ps
      rw [List.foldl_cons, ih]
      split
      · rfl
      · exact Keymap.props_get_default_not_key _ _ _ hp
  have hf1 : ∀ (L : List (LumatoneKeyLocation × Keymap.KeyDefinition)) (ps : Keymap.Props),
      Keymap.props_get (L.foldl (fun ps e => Keymap.explicit_key_props ps e.1 e.2) ps) p
        = Keymap.props_get ps p := by
    intro L
    induction L with
    | nil => intro ps; rfl
    | cons e L ih =>
      intro ps
      rw [List.foldl_cons, ih]
      exact Keymap.props_get_explicit_not_key _ _ _ _ hp
  rw [hf2, hf1]
  rfl

/-- from_ini_section run on a pure board section reproduces the default general
options: no general key is present there, so every option falls back to its
default and every table is absent. -/
theorem Keymap.general_from_board_props (km : Keymap.LumatoneKeyMap) (bi : BoardIndex) :
    Keymap.GeneralOptions.from_ini_section (Keymap.board_props km bi)
      = some (.ok Keymap.GeneralOptions.default) := by
  have hg := Keymap.board_props_get_not_key km bi
  simp only [Keymap.GeneralOptions.from_ini_section, Keymap.config_table_from_ini_section,
    Keymap.velocity_intervals_from_ini_section,
    hg Keymap.PropKey.noteOnOffVelocityCurveTbl rfl,
    hg Keymap.PropKey.faderConfigKey rfl,
    hg Keymap.PropKey.afterTouchConfigKey rfl,
    hg Keymap.PropKey.lumaTouchConfigKey rfl,
    hg Keymap.PropKey.velocityIntrvlTbl rfl,
    hg Keymap.PropKey.exprCtrlSensivity rfl,
    hg Keymap.PropKey.afterTouchActive rfl,
    hg Keymap.PropKey.lightOnKeyStrokes rfl,
    hg Keymap.PropKey.invertFootController rfl,
    hg Keymap.PropKey.invertSustain rfl]
  rfl

/-- Decimal digit characters parse back to themselves in radix 10 and are never a
plus sign. -/
theorem char_to_digit_digitChar_10 :
    ∀ d < 10, char_to_digit 10 (Nat.digitChar d) = some d ∧ Nat.digitChar d ≠ '+' := by
  decide

/-- Hex digit characters parse back to themselves in radix 16 and are never a plus
sign. -/
theorem char_to_digit_digitChar_16 :
    ∀ d < 16, char_to_digit 16 (Nat.digitChar d) = some d ∧ Nat.digitChar d ≠ '+' := by
  decide

/-- The accumulator loop of from_str_radix evaluates a digit string by Horner's
rule. -/
theorem from_str_radix_core_digits (r : Nat) :
    ∀ (L : List Nat) (acc : Nat),
      (∀ d ∈ L, char_to_digit r (Nat.digitChar d) = some d) →
      from_str_radix_core r (L.map Nat.digitChar) acc
        = some (acc * r ^ L.length + Nat.ofDigits r L.reverse) := by
  intro L
  induction L with
  | nil => intro acc _; simp [from_str_radix_core, Nat.ofDigits]
  | cons d L ih =>
    intro acc hL
    have hd := hL d (List.mem_cons_self _ _)
    simp only [List.map_cons, from_str_radix_core, hd]
    rw [ih (acc * r + d) (fun x hx => hL x (List.mem_cons_of_mem _ hx))]
    congr 1
    rw [List.reverse_cons, Nat.ofDigits_append]
    simp only [List.length_cons, List.length_reverse, Nat.ofDigits_cons, Nat.ofDigits_nil]
    ring

/-- The optional leading-plus strip of from_str_radix is the identity on a list
whose head is not a plus sign. -/
theorem plus_strip_of_ne (c : Char) (cs : List Char) (h : c ≠ '+') :
    (match c :: cs with
     | '+' :: rest => rest
     | cs => cs) = c :: cs := by
  split
  · rename_i rest heq
    injection heq with h1 _
    exact absurd h1 h
  · rfl

/-- from_str_radix on a rendered digit string returns the digit value when it is
below the bound. -/
theorem from_str_radix_mk_digits (r bound : Nat) (L : List Nat) (hne : L ≠ [])
    (hL : ∀ d ∈ L, char_to_digit r (Nat.digitChar d) = some d ∧ Nat.digitChar d ≠ '+')
    (hb : Nat.ofDigits r L.reverse < bound) :
    from_str_radix r bound (String.mk (L.map Nat.digitChar))
      = some (Nat.ofDigits r L.reverse) := by
  cases L with
  | nil => cases hne rfl
  | cons d L =>
    obtain ⟨hd, hplus⟩ := hL d (List.mem_cons_self _ _)
    have hdata : (String.mk (Nat.digitChar d :: L.map Nat.digitChar)).data
        = Nat.digitChar d :: L.map Nat.digitChar := rfl
    simp only [from_str_radix, List.map_cons, hdata,
      plus_strip_of_ne _ _ hplus]
    rw [if_neg (by simp)]
    rw [show (Nat.digitChar d :: List.map Nat.digitChar L)
          = (d :: L).map Nat.digitChar from rfl,
      from_str_radix_core_digits r (d :: L) 0
        (fun x hx => (hL x hx).1)]
    simp only [Nat.zero_mul, Nat.zero_add]
    rw [if_pos hb]

/-- The fuel-based digit list agrees with Nat.digits for sufficient fuel. -/
theorem render_digits_eq (fuel : Nat) :
    ∀ n : Nat, n ≤ fuel → render_digits fuel n = Nat.digits 10 n := by
  induction fuel with
  | zero =>
    intro n h
    have hn : n = 0 := by omega
    subst hn
    simp [render_digits]
  | succ fuel ih =>
    intro n h
    cases n with
    | zero => simp [render_digits]
    | succ m =>
      rw [show render_digits (fuel + 1) (m + 1)
            = ((m + 1) % 10) :: render_digits fuel ((m + 1) / 10) from rfl,
        Nat.digits_def' (by norm_num : (1 : ℕ) < 10) (Nat.succ_pos m)]
      congr 1
      exact ih _ (by omega)

/-- Decimal round trip: parsing the rendered decimal form of n yields n whenever n
is below the parser's bound. -/
theorem render_u_parse (bound n : Nat) (hn : n < bound) :
    from_str_radix 10 bound (render_u n) = some n := by
  by_cases h0 : n = 0
  · subst h0
    rw [show from_str_radix 10 bound (render_u 0)
          = if 0 < bound then some 0 else none from rfl,
      if_pos (by omega)]
  · rw [show render_u n = String.mk ((render_digits n n).reverse.map Nat.digitChar)
          from by simp [render_u, h0]]
    rw [render_digits_eq n n le_rfl]
    have hL : ∀ d ∈ (Nat.digits 10 n).reverse,
        char_to_digit 10 (Nat.digitChar d) = some d ∧ Nat.digitChar d ≠ '+' := by
      intro d hd
      exact char_to_digit_digitChar_10 d
        (Nat.digits_lt_base (by norm_num) (List.mem_reverse.mp hd))
    rw [from_str_radix_mk_digits 10 bound _
        (by simp [h0, Nat.digits_ne_nil_iff_ne_zero])
        hL
        (by rw [List.reverse_reverse, Nat.ofDigits_digits]; exact hn)]
    rw [List.reverse_reverse, Nat.ofDigits_digits]

/-- Hex round trip for the six-digit color string: parsing yields the packed 24-bit
value. -/
theorem to_hex_parse (c : RGBColor) (hr : c.r < 256) (hg : c.g < 256) (hb : c.b < 256) :
    from_str_radix 16 (2 ^ 32) (RGBColor.to_hex_string c)
      = some (c.r * 65536 + c.g * 256 + c.b) := by
  have hform : RGBColor.to_hex_string c
      = String.mk (([c.r / 16, c.r % 16, c.g / 16, c.g % 16, c.b / 16, c.b % 16]).map
          Nat.digitChar) := rfl
  rw [hform,
    from_str_radix_mk_digits 16 (2 ^ 32) _ (by simp)
      (by
        intro d hd
        have hd16 : d < 16 := by
          simp only [List.mem_cons, List.not_mem_nil, or_false] at hd
          rcases hd with rfl | rfl | rfl | rfl | rfl | rfl <;> omega
        exact char_to_digit_digitChar_16 d hd16)
      (by
        simp only [List.reverse_cons, List.reverse_nil, List.nil_append, List.cons_append,
          Nat.ofDigits_cons, Nat.ofDigits_nil]
        omega)]
  congr 1
  simp only [List.reverse_cons, List.reverse_nil, List.nil_append, List.cons_append,
    Nat.ofDigits_cons, Nat.ofDigits_nil]
  omega

/-- Unpacking the 24-bit packed color reproduces the three 8-bit channels. -/
theorem fromU32_pack (c : RGBColor) (hr : c.r < 256) (hg : c.g < 256) (hb : c.b < 256) :
    RGBColor.fromU32 (c.r * 65536 + c.g * 256 + c.b) = c := by
  obtain ⟨r, g, b⟩ := c
  dsimp only at hr hg hb
  simp only [RGBColor.fromU32, RGBColor.mk.injEq, Nat.shiftRight_eq_div_pow,
    show (0xff : ℕ) = 2 ^ 8 - 1 from rfl, Nat.and_pow_two_sub_one_eq_mod]
  norm_num
  omega

/-- Rebuilding a MidiChannel from its 1-based byte via the checked constructor is
the identity. -/
theorem midi_channel_round (c : MidiChannel) :
    (MidiChannel.new c.val).getD MidiChannel.default = c := by
  simp only [MidiChannel.new, dif_pos c.property, Option.getD_some]

/-- Reading back the four disabled-default writes. -/
theorem Keymap.props_get_default_self (ps : Keymap.Props) (k : Nat) :
    Keymap.props_get (Keymap.default_key_props ps k) (.keyN k) = some "0" ∧
    Keymap.props_get (Keymap.default_key_props ps k) (.chanN k) = some "1" ∧
    Keymap.props_get (Keymap.default_key_props ps k) (.colN k) = some "000000" ∧
    Keymap.props_get (Keymap.default_key_props ps k) (.ktypN k) = some "4" := by
  simp only [Keymap.default_key_props]
  refine ⟨?_, ?_, ?_, ?_⟩
  · rw [Keymap.props_get_set_other _ _ _ _
        (show (Keymap.PropKey.keyN k : Keymap.PropKey) ≠ .ktypN k by simp),
      Keymap.props_get_set_other _ _ _ _
        (show (Keymap.PropKey.keyN k : Keymap.PropKey) ≠ .colN k by simp),
      Keymap.props_get_set_other _ _ _ _
        (show (Keymap.PropKey.keyN k : Keymap.PropKey) ≠ .chanN k by simp),
      Keymap.props_get_set_self]
  · rw [Keymap.props_get_set_other _ _ _ _
        (show (Keymap.PropKey.chanN k : Keymap.PropKey) ≠ .ktypN k by simp),
      Keymap.props_get_set_other _ _ _ _
        (show (Keymap.PropKey.chanN k : Keymap.PropKey) ≠ .colN k by simp),
      Keymap.props_get_set_self]
  · rw [Keymap.props_get_set_other _ _ _ _
        (show (Keymap.PropKey.colN k : Keymap.PropKey) ≠ .ktypN k by simp),
      Keymap.props_get_set_self]
  · rw [Keymap.props_get_set_self]

/-- Reading back the writes of one explicit key: Key_/Chan_/Col_ carry the rendered
values; KTyp_ carries the key type code except for NoteOnOff keys, where the write
is skipped and the previous binding shines through. -/
theorem Keymap.props_get_explicit_self (ps : Keymap.Props) (loc : LumatoneKeyLocation)
    (d : Keymap.KeyDefinition) :
    Keymap.props_get (Keymap.explicit_key_props ps loc d) (.keyN loc.key_index.val)
        = some (render_u d.function.note_or_cc_num) ∧
    Keymap.props_get (Keymap.explicit_key_props ps loc d) (.chanN loc.key_index.val)
        = some (render_u d.function.midi_channel_byte) ∧
    Keymap.props_get (Keymap.explicit_key_props ps loc d) (.colN loc.key_index.val)
        = some d.color.to_hex_string ∧
    Keymap.props_get (Keymap.explicit_key_props ps loc d) (.ktypN loc.key_index.val)
        = (if d.function.key_type_code ≠ 1 then some (render_u d.function.key_type_code)
           else Keymap.props_get ps (.ktypN loc.key_index.val)) := by
  simp only [Keymap.explicit_key_props]
  by_cases hc : d.function.key_type_code ≠ 1
  · rw [if_pos hc, if_pos hc]
    refine ⟨?_, ?_, ?_, ?_⟩
    · rw [Keymap.props_get_set_other _ _ _ _
          (show (Keymap.PropKey.keyN loc.key_index.val : Keymap.PropKey)
            ≠ .ktypN loc.key_index.val by simp),
        Keymap.props_get_set_other _ _ _ _
          (show (Keymap.PropKey.keyN loc.key_index.val : Keymap.PropKey)
            ≠ .colN loc.key_index.val by simp),
        Keymap.props_get_set_other _ _ _ _
          (show (Keymap.PropKey.keyN loc.key_index.val : Keymap.PropKey)
            ≠ .chanN loc.key_index.val by simp),
        Keymap.props_get_set_self]
    · rw [Keymap.props_get_set_other _ _ _ _
          (show (Keymap.PropKey.chanN loc.key_index.val : Keymap.PropKey)
            ≠ .ktypN loc.key_index.val by simp),
        Keymap.props_get_set_other _ _ _ _
          (show (Keymap.PropKey.chanN loc.key_index.val : Keymap.PropKey)
            ≠ .colN loc.key_index.val by simp),
        Keymap.props_get_set_self]
    · rw [Keymap.props_get_set_other _ _ _ _
          (show (Keymap.PropKey.colN loc.key_index.val : Keymap.PropKey)
            ≠ .ktypN loc.key_index.val by simp),
        Keymap.props_get_set_self]
    · rw [Keymap.props_get_set_self]
  · rw [if_neg hc, if_neg hc]
    refine ⟨?_, ?_, ?_, ?_⟩
    · rw [Keymap.props_get_set_other _ _ _ _
          (show (Keymap.PropKey.keyN loc.key_index.val : Keymap.PropKey)
            ≠ .colN loc.key_index.val by simp),
        Keymap.props_get_set_other _ _ _ _
          (show (Keymap.PropKey.keyN loc.key_index.val : Keymap.PropKey)
            ≠ .chanN loc.key_index.val by simp),
        Keymap.props_get_set_self]
    · rw [Keymap.props_get_set_other _ _ _ _
          (show (Keymap.PropKey.chanN loc.key_index.val : Keymap.PropKey)
            ≠ .colN loc.key_index.val by simp),
        Keymap.props_get_set_self]
    · rw [Keymap.props_get_set_self]
    · rw [Keymap.props_get_set_other _ _ _ _
          (show (Keymap.PropKey.ktypN loc.key_index.val : Keymap.PropKey)
            ≠ .colN loc.key_index.val by simp),
        Keymap.props_get_set_other _ _ _ _
          (show (Keymap.PropKey.ktypN loc.key_index.val : Keymap.PropKey)
            ≠ .chanN loc.key_index.val by simp),
        Keymap.props_get_set_other _ _ _ _
          (show (Keymap.PropKey.ktypN loc.key_index.val : Keymap.PropKey)
            ≠ .keyN loc.key_index.val by simp)]

/-- When the key index k has an explicit entry, the disabled-default pass leaves all
four of k's properties alone. -/
theorem Keymap.fold_default_get_preserve (km : Keymap.LumatoneKeyMap) (bi : BoardIndex)
    (k : Fin 56) (hg : (km.keys.any fun e => e.1 = ⟨bi, k⟩) = true)
    (p : Keymap.PropKey)
    (hp : p = .keyN k.val ∨ p = .chanN k.val ∨ p = .colN k.val ∨ p = .ktypN k.val) :
    ∀ (L : List (Fin 56)) (ps : Keymap.Props),
      Keymap.props_get (L.foldl (fun ps j => if km.keys.any fun e => e.1 = ⟨bi, j⟩ then ps
        else Keymap.default_key_props ps j.val) ps) p = Keymap.props_get ps p := by
  intro L
  induction L with
  | nil => intro ps; rfl
  | cons j L ih =>
    intro ps
    rw [List.foldl_cons, ih]
    by_cases hj : (km.keys.any fun e => e.1 = ⟨bi, j⟩) = true
    · rw [if_pos hj]
    · rw [if_neg hj]
      have hjk : j ≠ k := by
        intro hcon; subst hcon; exact hj hg
      exact Keymap.props_get_default_other _ _ _
        (fun hv => hjk (Fin.val_injective hv)) _ hp

/-- The disabled-default pass over indices other than k leaves k's properties
alone. -/
theorem Keymap.fold_default_get_not_mem (km : Keymap.LumatoneKeyMap) (bi : BoardIndex)
    (k : Fin 56) (p : Keymap.PropKey)
    (hp : p = .keyN k.val ∨ p = .chanN k.val ∨ p = .colN k.val ∨ p = .ktypN k.val) :
    ∀ (L : List (Fin 56)) (ps : Keymap.Props), k ∉ L →
      Keymap.props_get (L.foldl (fun ps j => if km.keys.any fun e => e.1 = ⟨bi, j⟩ then ps
        else Keymap.default_key_props ps j.val) ps) p = Keymap.props_get ps p := by
  intro L
  induction L with
  | nil => intro ps _; rfl
  | cons j L ih =>
    intro ps hmem
    rw [List.foldl_cons, ih _ (fun h => hmem (List.mem_cons_of_mem _ h))]
    by_cases hj : (km.keys.any fun e => e.1 = ⟨bi, j⟩) = true
    · rw [if_pos hj]
    · rw [if_neg hj]
      have hjk : j ≠ k := fun hcon => hmem (hcon ▸ List.mem_cons_self _ _)
      exact Keymap.props_get_default_other _ _ _
        (fun hv => hjk (Fin.val_injective hv)) _ hp

/-- When the key index k has no explicit entry, the disabled-default pass writes
its four disabled values. -/
theorem Keymap.fold_default_get_written (km : Keymap.LumatoneKeyMap) (bi : BoardIndex)
    (k : Fin 56) (hg : (km.keys.any fun e => e.1 = ⟨bi, k⟩) = false) :
    ∀ (L : List (Fin 56)) (ps : Keymap.Props), k ∈ L → L.Nodup →
      Keymap.props_get (L.foldl (fun ps j => if km.keys.any fun e => e.1 = ⟨bi, j⟩ then ps
        else Keymap.default_key_props ps j.val) ps) (.keyN k.val) = some "0" ∧
      Keymap.props_get (L.foldl (fun ps j => if km.keys.any fun e => e.1 = ⟨bi, j⟩ then ps
        else Keymap.default_key_props ps j.val) ps) (.chanN k.val) = some "1" ∧
      Keymap.props_get (L.foldl (fun ps j => if km.keys.any fun e => e.1 = ⟨bi, j⟩ then ps
        else Keymap.default_key_props ps j.val) ps) (.colN k.val) = some "000000" ∧
      Keymap.props_get (L.foldl (fun ps j => if km.keys.any fun e => e.1 = ⟨bi, j⟩ then ps
        else Keymap.default_key_props ps j.val) ps) (.ktypN k.val) = some "4" := by
  intro L
  induction L with
  | nil => intro ps hmem; simp at hmem
  | cons j L ih =>
    intro ps hmem hnd
    by_cases hjk : j = k
    · subst hjk
      rw [List.foldl_cons, if_neg (by simp [hg])]
      have hnotmem : j ∉ L := (List.nodup_cons.mp hnd).1
      obtain ⟨g1, g2, g3, g4⟩ :=
        Keymap.props_get_default_self (Keymap.default_key_props ps j.val) j.val
      refine ⟨?_, ?_, ?_, ?_⟩
      · rw [Keymap.fold_default_get_not_mem km bi j _ (Or.inl rfl) L _ hnotmem]
        exact (Keymap.props_get_default_self ps j.val).1
      · rw [Keymap.fold_default_get_not_mem km bi j _ (Or.inr (Or.inl rfl)) L _ hnotmem]
        exact (Keymap.props_get_default_self ps j.val).2.1
      · rw [Keymap.fold_default_get_not_mem km bi j _ (Or.inr (Or.inr (Or.inl rfl))) L _ hnotmem]
        exact (Keymap.props_get_default_self ps j.val).2.2.1
      · rw [Keymap.fold_default_get_not_mem km bi j _ (Or.inr (Or.inr (Or.inr rfl))) L _ hnotmem]
        exact (Keymap.props_get_default_self ps j.val).2.2.2
    · rcases List.mem_cons.mp hmem with hcon | hmem2
      · exact absurd hcon.symm hjk
      · rw [List.foldl_cons]
        exact ih _ hmem2 (List.nodup_cons.mp hnd).2

/-- The explicit-key pass over entries with other key indices leaves k's properties
alone. -/
theorem Keymap.fold_explicit_get_not_mem (kv : Nat) (p : Keymap.PropKey)
    (hp : p = .keyN kv ∨ p = .chanN kv ∨ p = .colN kv ∨ p = .ktypN kv) :
    ∀ (L : List (LumatoneKeyLocation × Keymap.KeyDefinition)) (ps : Keymap.Props),
      (∀ e ∈ L, e.1.key_index.val ≠ kv) →
      Keymap.props_get (L.foldl (fun ps e => Keymap.explicit_key_props ps e.1 e.2) ps) p
        = Keymap.props_get ps p := by
  intro L
  induction L with
  | nil => intro ps _; rfl
  | cons e L ih =>
    intro ps hL
    rw [List.foldl_cons, ih _ (fun x hx => hL x (List.mem_cons_of_mem _ hx))]
    exact Keymap.props_get_explicit_other _ _ _ _ (hL e (List.mem_cons_self _ _)) _ hp

/-- The explicit-key pass containing exactly one entry for key index k (all other
entries having other indices) writes that entry's rendered properties. -/
theorem Keymap.fold_explicit_get_written (loc : LumatoneKeyLocation)
    (d : Keymap.KeyDefinition)
    (L1 L2 : List (LumatoneKeyLocation × Keymap.KeyDefinition)) (ps : Keymap.Props)
    (h1 : ∀ e ∈ L1, e.1.key_index.val ≠ loc.key_index.val)
    (h2 : ∀ e ∈ L2, e.1.key_index.val ≠ loc.key_index.val) :
    Keymap.props_get ((L1 ++ (loc, d) :: L2).foldl
        (fun ps e => Keymap.explicit_key_props ps e.1 e.2) ps)
        (.keyN loc.key_index.val) = some (render_u d.function.note_or_cc_num) ∧
    Keymap.props_get ((L1 ++ (loc, d) :: L2).foldl
        (fun ps e => Keymap.explicit_key_props ps e.1 e.2) ps)
        (.chanN loc.key_index.val) = some (render_u d.function.midi_channel_byte) ∧
    Keymap.props_get ((L1 ++ (loc, d) :: L2).foldl
        (fun ps e => Keymap.explicit_key_props ps e.1 e.2) ps)
        (.colN loc.key_index.val) = some d.color.to_hex_string ∧
    Keymap.props_get ((L1 ++ (loc, d) :: L2).foldl
        (fun ps e => Keymap.explicit_key_props ps e.1 e.2) ps)
        (.ktypN loc.key_index.val)
      = (if d.function.key_type_code ≠ 1 then some (render_u d.function.key_type_code)
         else Keymap.props_get ps (.ktypN loc.key_index.val)) := by
  rw [List.foldl_append, List.foldl_cons]
  obtain ⟨g1, g2, g3, g4⟩ := Keymap.props_get_explicit_self
    (L1.foldl (fun ps e => Keymap.explicit_key_props ps e.1 e.2) ps) loc d
  refine ⟨?_, ?_, ?_, ?_⟩
  · rw [Keymap.fold_explicit_get_not_mem _ _ (Or.inl rfl) L2 _ h2]
    exact g1
  · rw [Keymap.fold_explicit_get_not_mem _ _ (Or.inr (Or.inl rfl)) L2 _ h2]
    exact g2
  · rw [Keymap.fold_explicit_get_not_mem _ _ (Or.inr (Or.inr (Or.inl rfl))) L2 _ h2]
    exact g3
  · rw [Keymap.fold_explicit_get_not_mem _ _ (Or.inr (Or.inr (Or.inr rfl))) L2 _ h2, g4]
    by_cases hc : d.function.key_type_code ≠ 1
    · rw [if_pos hc, if_pos hc]
    · rw [if_neg hc, if_neg hc,
        Keymap.fold_explicit_get_not_mem _ _ (Or.inr (Or.inr (Or.inr rfl))) L1 _ h1]

/-- A successful keys_lookup means the pair is in the map. -/
theorem Keymap.keys_lookup_mem (keys : List (LumatoneKeyLocation × Keymap.KeyDefinition))
    (loc : LumatoneKeyLocation) (d : Keymap.KeyDefinition)
    (h : Keymap.keys_lookup keys loc = some d) : (loc, d) ∈ keys := by
  simp only [Keymap.keys_lookup, Option.map_eq_some'] at h
  obtain ⟨e, hfind, hsnd⟩ := h
  have hmem := List.mem_of_find?_eq_some hfind
  have hpred := List.find?_some hfind
  rw [List.mem_reverse] at hmem
  simp only [decide_eq_true_eq] at hpred
  obtain ⟨e1, e2⟩ := e
  dsimp only at hpred hsnd
  subst hpred
  subst hsnd
  exact hmem

/-- A failed keys_lookup means no entry carries the location. -/
theorem Keymap.keys_lookup_none (keys : List (LumatoneKeyLocation × Keymap.KeyDefinition))
    (loc : LumatoneKeyLocation)
    (h : Keymap.keys_lookup keys loc = none) : ∀ e ∈ keys, e.1 ≠ loc := by
  simp only [Keymap.keys_lookup, Option.map_eq_none', List.find?_eq_none,
    decide_eq_true_eq] at h
  intro e he
  exact h e (List.mem_reverse.mpr he)

/-- The four properties of a key index absent from the preset read as the explicit
disabled defaults in the rendered board section. -/
theorem Keymap.board_props_get_none (km : Keymap.LumatoneKeyMap) (bi : BoardIndex)
    (k : Fin 56) (hlk : Keymap.keys_lookup km.keys ⟨bi, k⟩ = none) :
    Keymap.props_get (Keymap.board_props km bi) (.keyN k.val) = some "0" ∧
    Keymap.props_get (Keymap.board_props km bi) (.chanN k.val) = some "1" ∧
    Keymap.props_get (Keymap.board_props km bi) (.colN k.val) = some "000000" ∧
    Keymap.props_get (Keymap.board_props km bi) (.ktypN k.val) = some "4" := by
  have hall := Keymap.keys_lookup_none km.keys ⟨bi, k⟩ hlk
  have hg : (km.keys.any fun e => e.1 = ⟨bi, k⟩) = false := by
    rw [List.any_eq_false]
    intro e he
    simpa using hall e he
  simp only [Keymap.board_props]
  exact Keymap.fold_default_get_written km bi k hg (List.finRange 56) _
    (List.mem_finRange k) (List.nodup_finRange 56)

/-- The four properties of an explicitly set key read back as the rendered values
of its definition in the rendered board section (KTyp_ being skipped exactly for
NoteOnOff keys). -/
theorem Keymap.board_props_get_some (km : Keymap.LumatoneKeyMap) (bi : BoardIndex)
    (k : Fin 56) (d : Keymap.KeyDefinition)
    (hnd : (km.keys.map Prod.fst).Nodup)
    (hlk : Keymap.keys_lookup km.keys ⟨bi, k⟩ = some d) :
    Keymap.props_get (Keymap.board_props km bi) (.keyN k.val)
        = some (render_u d.function.note_or_cc_num) ∧
    Keymap.props_get (Keymap.board_props km bi) (.chanN k.val)
        = some (render_u d.function.midi_channel_byte) ∧
    Keymap.props_get (Keymap.board_props km bi) (.colN k.val)
        = some d.color.to_hex_string ∧
    Keymap.props_get (Keymap.board_props km bi) (.ktypN k.val)
      = (if d.function.key_type_code ≠ 1 then some (render_u d.function.key_type_code)
         else none) := by
  have hmem : ((⟨bi, k⟩ : LumatoneKeyLocation), d) ∈ km.keys :=
    Keymap.keys_lookup_mem km.keys ⟨bi, k⟩ d hlk
  have hgt : (km.keys.any fun e => e.1 = ⟨bi, k⟩) = true :=
    List.any_eq_true.mpr ⟨_, hmem, by simp⟩
  have hmemf : ((⟨bi, k⟩ : LumatoneKeyLocation), d)
      ∈ km.keys.filter fun e => e.1.board_index = bi :=
    List.mem_filter.mpr ⟨hmem, by simp [LumatoneKeyLocation.board_index]⟩
  obtain ⟨L1, L2, hsplit⟩ := List.append_of_mem hmemf
  have hndf : ((km.keys.filter fun e => e.1.board_index = bi).map Prod.fst).Nodup :=
    ((List.filter_sublist _).map _).nodup hnd
  rw [hsplit, List.map_append, List.map_cons] at hndf
  obtain ⟨hnd1, hnd2, hdisj⟩ := List.nodup_append.mp hndf
  have hboard : ∀ e ∈ L1 ++ ((⟨bi, k⟩ : LumatoneKeyLocation), d) :: L2,
      e.1.board_index = bi := by
    intro e he
    rw [← hsplit] at he
    have := (List.mem_filter.mp he).2
    simpa using this
  have hloc : ∀ (e : LumatoneKeyLocation × Keymap.KeyDefinition),
      e.1.board_index = bi → e.1.key_index.val = k.val →
      e.1 = (⟨bi, k⟩ : LumatoneKeyLocation) := by
    intro e hb hk
    obtain ⟨⟨eb, ek⟩, ed⟩ := e
    simp only [LumatoneKeyLocation.board_index] at hb
    simp only [LumatoneKeyLocation.key_index] at hk
    dsimp only at hb hk ⊢
    subst hb
    congr 1
    exact Fin.val_injective hk
  have hne1 : ∀ e ∈ L1, e.1.key_index.val ≠ k.val := by
    intro e he hk
    have heq := hloc e (hboard e (List.mem_append_left _ he)) hk
    exact hdisj (List.mem_map_of_mem Prod.fst he)
      (by rw [heq]; exact List.mem_cons_self _ _)
  have hne2 : ∀ e ∈ L2, e.1.key_index.val ≠ k.val := by
    intro e he hk
    have heq := hloc e (hboard e (List.mem_append_right _ (List.mem_cons_of_mem _ he))) hk
    have hm : e.1 ∈ L2.map Prod.fst := List.mem_map_of_mem Prod.fst he
    rw [heq] at hm
    exact (List.nodup_cons.mp hnd2).1 hm
  simp only [Keymap.board_props]
  rw [hsplit]
  obtain ⟨G1, G2, G3, G4⟩ :=
    Keymap.fold_explicit_get_written ⟨bi, k⟩ d L1 L2 [] hne1 hne2
  dsimp only [LumatoneKeyLocation.key_index] at G1 G2 G3 G4
  have P := Keymap.fold_default_get_preserve km bi k hgt
  refine ⟨?_, ?_, ?_, ?_⟩
  · rw [P _ (Or.inl rfl) (List.finRange 56) _]
    exact G1
  · rw [P _ (Or.inr (Or.inl rfl)) (List.finRange 56) _]
    exact G2
  · rw [P _ (Or.inr (Or.inr (Or.inl rfl))) (List.finRange 56) _]
    exact G3
  · rw [P _ (Or.inr (Or.inr (Or.inr rfl))) (List.finRange 56) _]
    exact G4

/-- Bind of a successful Except computation. -/
theorem except_bind_ok {ε α β : Type} (a : α) (f : α → Except ε β) :
    (Except.ok a : Except ε α) >>= f = f a := rfl

/-- Parsing one key of a rendered board section yields the preset's key definition
for that location, normalized: absent keys come back as explicit disabled black
keys, and the fader-up-is-null flag comes back cleared. -/
theorem Keymap.parse_board_key_round (km : Keymap.LumatoneKeyMap) (bi : BoardIndex)
    (k : Fin 56) (hwf : Keymap.wf km) :
    Keymap.parse_board_key (Keymap.board_props km bi) bi k
      = .ok (⟨bi, k⟩, Keymap.normalize_entry (Keymap.keys_lookup km.keys ⟨bi, k⟩)) := by
  obtain ⟨hnd, hbounds⟩ := hwf
  cases hlk : Keymap.keys_lookup km.keys ⟨bi, k⟩ with
  | none =>
    obtain ⟨g1, g2, g3, g4⟩ := Keymap.board_props_get_none km bi k hlk
    simp only [Keymap.parse_board_key, Keymap.get_u8_or_default]
    rw [g1, g2, g3, g4]
    rfl
  | some d =>
    have hmem := Keymap.keys_lookup_mem km.keys ⟨bi, k⟩ d hlk
    obtain ⟨hnum, hcr, hcg, hcb⟩ := hbounds _ hmem
    obtain ⟨g1, g2, g3, g4⟩ := Keymap.board_props_get_some km bi k d hnd hlk
    cases hfun : d.function with
    | noteOnOff ch n =>
      rw [hfun] at g1 g2 g4 hnum
      simp only [LumatoneKeyFunction.note_or_cc_num, LumatoneKeyFunction.midi_channel_byte,
        LumatoneKeyFunction.key_type_code] at g1 g2 g4 hnum
      rw [if_neg (by simp)] at g4
      simp only [Keymap.parse_board_key, Keymap.get_u8_or_default]
      rw [g1, g2, g3, g4]
      dsimp only
      simp only [Option.getD_some]
      rw [render_u_parse 256 n hnum,
        render_u_parse 256 ch.val (by have := ch.property; omega),
        to_hex_parse d.color hcr hcg hcb]
      simp only [Option.getD_some]
      simp only [except_bind_ok, midi_channel_round ch, fromU32_pack d.color hcr hcg hcb,
        show Keymap.normalize_entry (some d)
          = ⟨Keymap.clear_fader_null d.function, d.color⟩ from rfl, hfun]
      rfl
    | continuousController ch n fu =>
      rw [hfun] at g1 g2 g4 hnum
      simp only [LumatoneKeyFunction.note_or_cc_num, LumatoneKeyFunction.midi_channel_byte,
        LumatoneKeyFunction.key_type_code] at g1 g2 g4 hnum
      rw [if_pos (by simp)] at g4
      simp only [Keymap.parse_board_key, Keymap.get_u8_or_default]
      rw [g1, g2, g3, g4]
      dsimp only
      simp only [Option.getD_some]
      rw [render_u_parse 256 2 (by norm_num), render_u_parse 256 n hnum,
        render_u_parse 256 ch.val (by have := ch.property; omega),
        to_hex_parse d.color hcr hcg hcb]
      simp only [Option.getD_some]
      simp only [except_bind_ok, midi_channel_round ch, fromU32_pack d.color hcr hcg hcb,
        show Keymap.normalize_entry (some d)
          = ⟨Keymap.clear_fader_null d.function, d.color⟩ from rfl, hfun]
      rfl
    | lumaTouch ch n fu =>
      rw [hfun] at g1 g2 g4 hnum
      simp only [LumatoneKeyFunction.note_or_cc_num, LumatoneKeyFunction.midi_channel_byte,
        LumatoneKeyFunction.key_type_code] at g1 g2 g4 hnum
      rw [if_pos (by simp)] at g4
      simp only [Keymap.parse_board_key, Keymap.get_u8_or_default]
      rw [g1, g2, g3, g4]
      dsimp only
      simp only [Option.getD_some]
      rw [render_u_parse 256 3 (by norm_num), render_u_parse 256 n hnum,
        render_u_parse 256 ch.val (by have := ch.property; omega),
        to_hex_parse d.color hcr hcg hcb]
      simp only [Option.getD_some]
      simp only [except_bind_ok, midi_channel_round ch, fromU32_pack d.color hcr hcg hcb,
        show Keymap.normalize_entry (some d)
          = ⟨Keymap.clear_fader_null d.function, d.color⟩ from rfl, hfun]
      rfl
    | disabled =>
      rw [hfun] at g1 g2 g4
      simp only [LumatoneKeyFunction.note_or_cc_num, LumatoneKeyFunction.midi_channel_byte,
        LumatoneKeyFunction.key_type_code] at g1 g2 g4
      rw [if_pos (by simp)] at g4
      simp only [Keymap.parse_board_key, Keymap.get_u8_or_default]
      rw [g1, g2, g3, g4]
      dsimp only
      simp only [Option.getD_some]
      rw [render_u_parse 256 4 (by norm_num), render_u_parse 256 0 (by norm_num),
        to_hex_parse d.color hcr hcg hcb]
      simp only [Option.getD_some]
      simp only [except_bind_ok, fromU32_pack d.color hcr hcg hcb,
        show Keymap.normalize_entry (some d)
          = ⟨Keymap.clear_fader_null d.function, d.color⟩ from rfl, hfun]
      rfl

/-- Parsing a whole rendered board section yields its 56 key locations in index
order, each with the preset's normalized key definition. -/
theorem Keymap.parse_board_keys_round (km : Keymap.LumatoneKeyMap) (bi : BoardIndex)
    (hwf : Keymap.wf km) :
    Keymap.parse_board_keys (Keymap.board_props km bi) bi
      = .ok ((List.finRange 56).map fun k =>
          (⟨bi, k⟩, Keymap.normalize_entry (Keymap.keys_lookup km.keys ⟨bi, k⟩))) := by
  simp only [Keymap.parse_board_keys]
  have hgen : ∀ (L : List (Fin 56)),
      L.mapM (Keymap.parse_board_key (Keymap.board_props km bi) bi)
        = .ok (L.map fun k =>
            (⟨bi, k⟩, Keymap.normalize_entry (Keymap.keys_lookup km.keys ⟨bi, k⟩))) := by
    intro L
    induction L with
    | nil => rfl
    | cons k L ih =>
      rw [List.mapM_cons, Keymap.parse_board_key_round km bi k hwf, ih]
      rfl
  exact hgen _

/-- Full INI round trip: rendering a well-formed preset and parsing it back yields
the preset's keys normalized over all 280 locations, and the default general
options (the board sections carry no general keys, and the parser only reads board
sections). -/
theorem Keymap.to_ini_from_ini (km : Keymap.LumatoneKeyMap) (hwf : Keymap.wf km) :
    Keymap.LumatoneKeyMap.from_ini (Keymap.LumatoneKeyMap.to_ini km)
      = some (.ok ⟨Keymap.roundKeys km, Keymap.GeneralOptions.default⟩) := by
  simp only [Keymap.LumatoneKeyMap.from_ini, Keymap.board_loop, Keymap.from_ini_boards,
    Keymap.to_ini_section_board km 1 .octave1 (by simp [Keymap.board_loop]),
    Keymap.to_ini_section_board km 2 .octave2 (by simp [Keymap.board_loop]),
    Keymap.to_ini_section_board km 3 .octave3 (by simp [Keymap.board_loop]),
    Keymap.to_ini_section_board km 4 .octave4 (by simp [Keymap.board_loop]),
    Keymap.to_ini_section_board km 5 .octave5 (by simp [Keymap.board_loop]),
    Keymap.general_from_board_props km,
    Keymap.parse_board_keys_round km _ hwf,
    Keymap.roundKeys, List.flatMap_cons, List.flatMap_nil]
  simp [Option.map, Except.map, List.append_assoc]

/-- C7 counterexample: the general options do not survive the INI round trip.  The
renderer writes them only to the general (top) section, while the parser rebuilds
the general options from the board sections alone (where the official editor dumps
them), so a preset with AfterTouchActive set comes back with the default general
options — the flag is lost. -/
theorem C7_counterexample :
    Keymap.LumatoneKeyMap.from_ini
        (Keymap.LumatoneKeyMap.to_ini
          ⟨[], { Keymap.GeneralOptions.default with after_touch_active := true }⟩)
      = some (.ok ⟨Keymap.roundKeys
            ⟨[], { Keymap.GeneralOptions.default with after_touch_active := true }⟩,
          Keymap.GeneralOptions.default⟩) ∧
    Keymap.GeneralOptions.default
      ≠ { Keymap.GeneralOptions.default with after_touch_active := true } := by
  constructor
  · exact Keymap.to_ini_from_ini _ (by decide)
  · decide

/-- C7 amended: for every well-formed preset (distinct key locations, 8-bit note
numbers and color channels), parsing the rendered INI text succeeds and yields the
preset's key definitions normalized — all 280 locations in board-major key-minor
order, absent keys as explicit disabled black keys, fader-up-is-null cleared — but
the general options are reset to their defaults: every flag, the expression
sensitivity, the four curve tables and the velocity intervals are lost, because the
parser reads general options only from the board sections. -/
theorem C7_amended (km : Keymap.LumatoneKeyMap) (hwf : Keymap.wf km) :
    Keymap.LumatoneKeyMap.from_ini (Keymap.LumatoneKeyMap.to_ini km)
      = some (.ok ⟨Keymap.roundKeys km, Keymap.GeneralOptions.default⟩) :=
  Keymap.to_ini_from_ini km hwf

theorem C7_amended_witness :
    Keymap.wf Keymap.LumatoneKeyMap.new ∧
    Keymap.LumatoneKeyMap.from_ini (Keymap.LumatoneKeyMap.to_ini Keymap.LumatoneKeyMap.new)
      = some (.ok ⟨Keymap.roundKeys Keymap.LumatoneKeyMap.new,
          Keymap.GeneralOptions.default⟩) :=
  ⟨by decide, C7_amended Keymap.LumatoneKeyMap.new (by decide)⟩

end Lumatone
